import Mathlib

/-!
Verification of the workflow engine in `src/core/machine.py` (Grapheteria).

The Python module is shallowly embedded: Python dictionaries become
association lists with insertion-order-preserving update, `None`-able
values become `Option`, exceptions become `Except`, and the engine's
mutable state becomes explicit state passing.  Guard-condition
evaluation (Python `eval`) is a parameter `Evaluator`; an evaluation
that raises is modelled by `none` (the code turns it into `False`).
-/

set_option maxRecDepth 4000

/-- Python dict lookup (`d[k]` / `k in d`). -/
def dictLookup {κ α : Type} [DecidableEq κ] : List (κ × α) → κ → Option α
  | [], _ => none
  | (k, v) :: rest, key => if k = key then some v else dictLookup rest key

/-- Python dict update `d[k] = v`: replaces in place when the key exists,
appends otherwise (insertion order preserved, as in CPython). -/
def dictInsert {κ α : Type} [DecidableEq κ] : List (κ × α) → κ → α → List (κ × α)
  | [], key, v => [(key, v)]
  | (k, w) :: rest, key, v =>
    if k = key then (key, v) :: rest else (k, w) :: dictInsert rest key v

/-- Python `del d[k]` (keys are unique, so removing the first hit suffices). -/
def dictRemove {κ α : Type} [DecidableEq κ] : List (κ × α) → κ → List (κ × α)
  | [], _ => []
  | (k, w) :: rest, key => if k = key then rest else (k, w) :: dictRemove rest key

/-- Python `d.values()`. -/
def dictValues {κ α : Type} (d : List (κ × α)) : List α := d.map Prod.snd

/-- Python `d.keys()`. -/
def dictKeys {κ α : Type} (d : List (κ × α)) : List κ := d.map Prod.fst

theorem dictLookup_insert_self {κ α : Type} [DecidableEq κ]
    (d : List (κ × α)) (k : κ) (v : α) : dictLookup (dictInsert d k v) k = some v := by
  induction d with
  | nil => simp [dictInsert, dictLookup]
  | cons hd tl ih =>
    obtain ⟨k0, v0⟩ := hd
    by_cases h : k0 = k
    · simp [dictInsert, dictLookup, h]
    · simp [dictInsert, dictLookup, h, ih]

theorem dictLookup_insert_ne {κ α : Type} [DecidableEq κ]
    (d : List (κ × α)) (k k' : κ) (v : α) (h : k ≠ k') :
    dictLookup (dictInsert d k v) k' = dictLookup d k' := by
  induction d with
  | nil => simp [dictInsert, dictLookup, h]
  | cons hd tl ih =>
    obtain ⟨k0, v0⟩ := hd
    by_cases h0 : k0 = k
    · subst h0
      simp [dictInsert, dictLookup, h]
    · simp only [dictInsert, if_neg h0]
      by_cases h1 : k0 = k'
      · simp [dictLookup, h1]
      · simp [dictLookup, h1, ih]

theorem dictInsert_insert_same {κ α : Type} [DecidableEq κ]
    (d : List (κ × α)) (k : κ) (v w : α) :
    dictInsert (dictInsert d k v) k w = dictInsert d k w := by
  induction d with
  | nil => simp [dictInsert]
  | cons hd tl ih =>
    obtain ⟨k0, v0⟩ := hd
    by_cases h : k0 = k
    · simp [dictInsert, h]
    · simp [dictInsert, h, ih]

/-- Values stored in the shared state / delivered as inputs.  The engine is
agnostic to the payload type; this covers the values the spec exercises. -/
inductive Value where
  | vint : Int → Value
  | vstr : String → Value
  | vbool : Bool → Value
  | vnull : Value
deriving DecidableEq

/-- The JSON-like shared-state mapping (`shared`). -/
abbrev Shared := List (String × Value)

/-- `NodeStatus` (machine.py lines 26-30). -/
inductive NodeStatus where
  | waiting_for_input
  | completed
  | failed
deriving DecidableEq

/-- `WorkflowStatus` (machine.py lines 18-24). -/
inductive WorkflowStatus where
  | IDLE
  | RUNNING
  | COMPLETED
  | FAILED
  | WAITING_FOR_INPUT
deriving DecidableEq

/-- The `awaiting_input` record populated by `request_input`
(machine.py lines 340-346). -/
structure AwaitingInput where
  node_id : String
  request_id : String
  prompt : Option String
  options : Option (List String)
  input_type : String
deriving DecidableEq

/-- Metadata values (timestamps, step indices, fork lineage).  Timestamps are
modelled by the engine's clock counter. -/
inductive MValue where
  | mstr : String → MValue
  | mnat : Nat → MValue
  | forkedFrom : String → Nat → MValue
deriving DecidableEq

/-- `ExecutionState` (machine.py lines 32-41).  `to_dict`/`from_dict` are
deep copies, which are the identity on immutable Lean values, so journal
snapshots are `ExecutionState`s. -/
structure ExecutionState where
  shared : Shared
  next_node_id : Option String
  workflow_status : WorkflowStatus
  node_statuses : List (String × NodeStatus)
  awaiting_input : Option AwaitingInput
  previous_node_id : Option String
  metadata : List (String × MValue)
deriving DecidableEq

/-- `Transition` (machine.py lines 187-191). -/
structure Transition where
  from_id : String
  to_id : String
  condition : String
deriving DecidableEq

/-- The guard evaluator abstracts Python `eval` over the restricted
environment of machine.py lines 195-199: given the condition string and the
shared state it returns the truth value, or `none` when evaluation raises. -/
abbrev Evaluator := String → Shared → Option Bool

/-- `Transition.should_transition` (machine.py lines 193-202): an evaluation
error is logged and treated as `False`. -/
def should_transition (ev : Evaluator) (t : Transition) (st : ExecutionState) : Bool :=
  (ev t.condition st.shared).getD false

/-- Second loop of `Node.get_next_node_id` (machine.py lines 115-121):
scan transitions in insertion order, remembering the first `"None"` sentinel
as the fallback, returning the first non-sentinel guard that evaluates true;
otherwise the fallback destination, if any. -/
def scanTransitions (ev : Evaluator) (st : ExecutionState) :
    List Transition → Option Transition → Option String
  | [], noneT => noneT.map Transition.to_id
  | t :: rest, noneT =>
    if t.condition = "None" then
      scanTransitions ev st rest (if noneT.isNone then some t else noneT)
    else if t.condition = "False" then
      scanTransitions ev st rest noneT
    else if should_transition ev t st then
      some t.to_id
    else
      scanTransitions ev st rest noneT

/-- `Node.get_next_node_id` (machine.py lines 111-121).  The transitions of a
node are a dict keyed by destination id (see `add_transition`); iteration is
over its values in insertion order.  A literal `"True"` guard anywhere wins
first. -/
def get_next_node_id (ev : Evaluator) (transitions : List (String × Transition))
    (st : ExecutionState) : Option String :=
  match (dictValues transitions).find? (fun t => t.condition = "True") with
  | some t => some t.to_id
  | none => scanTransitions ev st (dictValues transitions) none

/-- Abstract behaviour of a user node's `run` (prepare/execute/cleanup) as the
engine observes it: it either returns (mutating the shared state), raises, or
calls `request_input` once and, if an input value is delivered, finishes with
the continuation. -/
inductive NodeBehavior where
  | completes : (Shared → Shared) → NodeBehavior
  | raises : String → NodeBehavior
  | asksInput : Option String → Option (List String) → String → Option String →
      (Option Value → Shared → Shared) → NodeBehavior

/-- A loaded node: identity, outgoing transitions keyed by destination id,
and its (abstracted) user code. -/
structure NodeDef where
  id : String
  transitions : List (String × Transition)
  behavior : NodeBehavior

/-- `Node.add_transition` (machine.py lines 123-124): transitions are stored
in a dict keyed by `to_id`. -/
def add_transition (n : NodeDef) (t : Transition) : NodeDef :=
  { n with transitions := dictInsert n.transitions t.to_id t }

/-- The loader's edge loop for one node (machine.py lines 244-246),
restricted to the edges whose `from` is this node. -/
def addEdges (n : NodeDef) (edges : List Transition) : NodeDef :=
  edges.foldl add_transition n

/-- Combined dict lookup-after-insert lemma. -/
theorem dictLookup_insert {κ α : Type} [DecidableEq κ]
    (d : List (κ × α)) (k k' : κ) (v : α) :
    dictLookup (dictInsert d k v) k' = if k = k' then some v else dictLookup d k' := by
  by_cases h : k = k'
  · subst h
    simp [dictLookup_insert_self]
  · simp [h, dictLookup_insert_ne d k k' v h]

theorem mem_dictKeys_insert {κ α : Type} [DecidableEq κ]
    (d : List (κ × α)) (k : κ) (v : α) (x : κ) :
    x ∈ dictKeys (dictInsert d k v) ↔ x = k ∨ x ∈ dictKeys d := by
  induction d with
  | nil => simp [dictInsert, dictKeys]
  | cons hd tl ih =>
    obtain ⟨k0, v0⟩ := hd
    by_cases h : k0 = k
    · subst h
      simp [dictInsert, dictKeys]
    · simp only [dictInsert, if_neg h, dictKeys, List.map_cons, List.mem_cons] at *
      tauto

theorem nodup_dictKeys_insert {κ α : Type} [DecidableEq κ]
    (d : List (κ × α)) (hd : (dictKeys d).Nodup) (k : κ) (v : α) :
    (dictKeys (dictInsert d k v)).Nodup := by
  induction d with
  | nil => simp [dictInsert, dictKeys]
  | cons p tl ih =>
    obtain ⟨k0, v0⟩ := p
    simp only [dictKeys, List.map_cons, List.nodup_cons] at hd
    by_cases h : k0 = k
    · subst h
      simpa [dictInsert, dictKeys] using hd
    · simp only [dictInsert, if_neg h, dictKeys, List.map_cons, List.nodup_cons]
      refine ⟨?_, ih hd.2⟩
      intro hmem
      rcases (mem_dictKeys_insert tl k v k0).mp hmem with h1 | h1
      · exact h h1
      · exact hd.1 h1

theorem mem_dictInsert {κ α : Type} [DecidableEq κ]
    (d : List (κ × α)) (k : κ) (v : α) (p : κ × α) (hp : p ∈ dictInsert d k v) :
    p = (k, v) ∨ p ∈ d := by
  induction d with
  | nil => simpa [dictInsert] using hp
  | cons hd0 tl ih =>
    obtain ⟨k0, v0⟩ := hd0
    by_cases h : k0 = k
    · subst h
      rcases (by simpa [dictInsert] using hp : p = (k0, v) ∨ p ∈ tl) with h1 | h1
      · exact Or.inl h1
      · exact Or.inr (List.mem_cons_of_mem _ h1)
    · rcases (by simpa [dictInsert, h] using hp : p = (k0, v0) ∨ p ∈ dictInsert tl k v) with h1 | h1
      · exact Or.inr (by simp [h1])
      · rcases ih h1 with h2 | h2
        · exact Or.inl h2
        · exact Or.inr (List.mem_cons_of_mem _ h2)

/-- Looking up a destination after the loader's edge loop: the stored
transition is the last edge in document order with that destination
(earlier ones were overwritten in place). -/
theorem dictLookup_addEdges (edges : List Transition) :
    ∀ (n : NodeDef) (d : String),
      dictLookup (addEdges n edges).transitions d =
        (edges.reverse.find? (fun t => t.to_id = d)).or (dictLookup n.transitions d) := by
  induction edges with
  | nil => intro n d; simp [addEdges]
  | cons t rest ih =>
    intro n d
    have step : addEdges n (t :: rest) = addEdges (add_transition n t) rest := rfl
    rw [step, ih (add_transition n t) d]
    have hins : dictLookup (add_transition n t).transitions d =
        if t.to_id = d then some t else dictLookup n.transitions d := by
      simpa [add_transition] using dictLookup_insert n.transitions t.to_id d t
    rw [hins]
    have : (t :: rest).reverse = rest.reverse ++ [t] := by simp
    rw [this, List.find?_append]
    cases h : rest.reverse.find? (fun t => t.to_id = d) with
    | none =>
      by_cases hd : t.to_id = d <;> simp [hd, List.find?, Option.or]
    | some u =>
      by_cases hd : t.to_id = d <;> simp [hd, List.find?, Option.or]

/-- Claim C2: if any outgoing transition carries the literal guard string
`"True"`, edge selection returns the destination of the first such transition
in insertion order, for every shared state and every guard evaluator. -/
theorem c2_true_guard_short_circuit (ev : Evaluator)
    (transitions : List (String × Transition)) (st : ExecutionState) (t : Transition)
    (h : (dictValues transitions).find? (fun t => t.condition = "True") = some t) :
    get_next_node_id ev transitions st = some t.to_id := by
  simp [get_next_node_id, h]

/-- Edge `shared['x']>5 → big` of spec scenario 2. -/
def tRouterBig : Transition :=
  { from_id := "router", to_id := "big", condition := "shared[\x27x\x27]>5" }

/-- Edge `True → small` of spec scenario 2 (inserted after `big`). -/
def tRouterSmall : Transition :=
  { from_id := "router", to_id := "small", condition := "True" }

/-- The `router` node of spec scenario 2, loaded with its two edges in
document order. -/
def routerNode : NodeDef :=
  addEdges { id := "router", transitions := [], behavior := NodeBehavior.completes id }
    [tRouterBig, tRouterSmall]

/-- Python `eval` restricted to the guard `shared['x']>5`: `KeyError` /
non-integer values make the evaluation raise (modelled by `none`). -/
def evalXgt5 : Evaluator := fun c sh =>
  if c = "shared[\x27x\x27]>5" then
    match dictLookup sh "x" with
    | some (Value.vint n) => some (decide (5 < n))
    | _ => none
  else none

/-- An execution state whose shared state is `{x: v}`. -/
def stateX (v : Int) : ExecutionState :=
  { shared := [("x", Value.vint v)]
    next_node_id := some "router"
    workflow_status := WorkflowStatus.IDLE
    node_statuses := []
    awaiting_input := none
    previous_node_id := none
    metadata := [] }

/-- Witness for C2: on the concrete router node the `"True"` edge to `small`
is found first, and edge selection picks it. -/
theorem c2_true_guard_short_circuit_witness :
    (dictValues routerNode.transitions).find? (fun t => t.condition = "True") =
        some tRouterSmall ∧
    get_next_node_id evalXgt5 routerNode.transitions (stateX 10) = some "small" :=
  ⟨rfl, c2_true_guard_short_circuit evalXgt5 routerNode.transitions (stateX 10) tRouterSmall rfl⟩

/-- Counterexample to claim C3: with shared state `{x:10}` edge selection on
`router` yields `small`, not `big` — the literal `"True"` guard on the edge to
`small` short-circuits the conditional edge to `big` (machine.py lines
112-114 run before any condition is evaluated). -/
theorem c3_counterexample :
    get_next_node_id evalXgt5 routerNode.transitions (stateX 10) = some "small" ∧
    (some "small" : Option String) ≠ some "big" :=
  ⟨rfl, by decide⟩

/-- Claim C3 as amended: on `router` (edges `shared['x']>5 → big` then
`True → small`), edge selection yields `small` for every shared state and
every evaluator — in particular both for `{x:10}` and for `{x:0}`. -/
theorem c3_router_always_small (ev : Evaluator) (st : ExecutionState) :
    get_next_node_id ev routerNode.transitions st = some "small" := rfl

/-- A node as built by `Node.__init__` (machine.py line 91): no transitions
yet.  The behaviour tag is irrelevant to transition storage. -/
def emptyNode (nid : String) : NodeDef :=
  { id := nid, transitions := [], behavior := NodeBehavior.completes id }

/-- Claim C9: transitions are stored keyed by destination id, so after
loading any edge list a node holds at most one edge per destination, every
stored edge sits under its own destination key, and the edge stored for a
destination is the last edge to it in document order. -/
theorem c9_transitions_keyed_by_destination (nid : String) (edges : List Transition) :
    (dictKeys (addEdges (emptyNode nid) edges).transitions).Nodup ∧
    (∀ p ∈ (addEdges (emptyNode nid) edges).transitions, p.2.to_id = p.1) ∧
    (∀ d, dictLookup (addEdges (emptyNode nid) edges).transitions d =
        edges.reverse.find? (fun t => t.to_id = d)) := by
  refine ⟨?_, ?_, ?_⟩
  · have main : ∀ (es : List Transition) (n : NodeDef),
        (dictKeys n.transitions).Nodup → (dictKeys (addEdges n es).transitions).Nodup := by
      intro es
      induction es with
      | nil => intro n h; exact h
      | cons t rest ih =>
        intro n h
        exact ih (add_transition n t) (nodup_dictKeys_insert n.transitions h t.to_id t)
    exact main edges (emptyNode nid) (by simp [emptyNode, dictKeys])
  · have main : ∀ (es : List Transition) (n : NodeDef),
        (∀ p ∈ n.transitions, p.2.to_id = p.1) →
        (∀ p ∈ (addEdges n es).transitions, p.2.to_id = p.1) := by
      intro es
      induction es with
      | nil => intro n h; exact h
      | cons t rest ih =>
        intro n h
        refine ih (add_transition n t) ?_
        intro p hp
        rcases mem_dictInsert n.transitions t.to_id t p hp with h1 | h1
        · subst h1; rfl
        · exact h p h1
    exact main edges (emptyNode nid) (by simp [emptyNode])
  · intro d
    have := dictLookup_addEdges edges (emptyNode nid) d
    simpa [emptyNode, dictLookup] using this

/-- User code of one node for the node-runtime claims: the three lifecycle
phases plus the fallback, as pure fallible functions.  `prepare` and
`cleanup` receive and return the shared state (they mutate it by reference in
Python); `execute` is indexed by the attempt number (`self.cur_retry`) so
per-attempt outcomes can be stated. -/
structure NodeCode (α β γ ε : Type) where
  max_retries : Nat
  prepare : Shared → Except ε (α × Shared)
  execute : Nat → α → Except ε β
  exec_fallback : α → ε → Except ε β
  cleanup : Shared → α → Option β → Except ε (γ × Shared)

/-- The retry loop of `Node._execute_with_retry` (machine.py lines 152-162),
unrolled from attempt `i` with `fuel` attempts remaining: on an exception in
the final attempt (`cur_retry == max_retries - 1`) the fallback's result is
returned (or its exception propagates); the `return None` after the loop is
reached exactly when `max_retries == 0`. -/
def retryFrom {α β γ ε : Type} (n : NodeCode α β γ ε) (p : α) :
    Nat → Nat → Except ε (Option β)
  | _, 0 => Except.ok none
  | i, fuel + 1 =>
    match n.execute i p with
    | Except.ok b => Except.ok (some b)
    | Except.error e =>
      if i = n.max_retries - 1 then (n.exec_fallback p e).map some
      else retryFrom n p (i + 1) fuel

/-- `Node._execute_with_retry` (machine.py lines 152-162). -/
def execute_with_retry {α β γ ε : Type} (n : NodeCode α β γ ε) (p : α) :
    Except ε (Option β) :=
  retryFrom n p 0 n.max_retries

/-- `Node.run` (machine.py lines 137-150).  `prepare` runs outside the
`try` block; on success of the retry wrapper the node is marked `completed`
before `cleanup` runs; any exception inside the `try` block marks the node
`failed` and re-raises. -/
def runNode {α β γ ε : Type} (n : NodeCode α β γ ε) (nid : String)
    (st : ExecutionState) : Except ε γ × ExecutionState :=
  match n.prepare st.shared with
  | Except.error e => (Except.error e, st)
  | Except.ok (p, sh1) =>
    let st1 := { st with shared := sh1 }
    match execute_with_retry n p with
    | Except.error e =>
      (Except.error e,
        { st1 with node_statuses := dictInsert st1.node_statuses nid NodeStatus.failed })
    | Except.ok execResult =>
      let st2 := { st1 with
        node_statuses := dictInsert st1.node_statuses nid NodeStatus.completed }
      match n.cleanup st2.shared p execResult with
      | Except.error e =>
        (Except.error e,
          { st2 with node_statuses := dictInsert st2.node_statuses nid NodeStatus.failed })
      | Except.ok (r, sh2) => (Except.ok r, { st2 with shared := sh2 })

/-- When every attempt of `execute` raises, the retry loop returns the
fallback's result. -/
theorem retryFrom_all_fail {α β γ ε : Type} (n : NodeCode α β γ ε) (p : α)
    (err : Nat → ε) (hex : ∀ i, n.execute i p = Except.error (err i)) :
    ∀ (fuel i : Nat), 1 ≤ fuel → i + fuel = n.max_retries →
      retryFrom n p i fuel = (n.exec_fallback p (err (n.max_retries - 1))).map some := by
  intro fuel
  induction fuel with
  | zero => intro i h; omega
  | succ f ih =>
    intro i h1 h2
    show retryFrom n p i (f + 1) = _
    rw [retryFrom, hex i]
    rcases Nat.eq_zero_or_pos f with hf | hf
    · subst hf
      have : i = n.max_retries - 1 := by omega
      simp [this]
    · have hne : ¬ (i = n.max_retries - 1) := by omega
      simp only [if_neg hne]
      exact ih (i + 1) (by omega) (by omega)

/-- Claim C4: if `prepare` succeeds, every one of the `max_retries` attempts
of `execute` raises, and `exec_fallback` returns `v`, then `run` completes:
`cleanup` receives the fallback value `v` as the execution result, its result
is the node's output, and the node's status entry is `completed`. -/
theorem c4_fallback_value_reaches_cleanup {α β γ ε : Type}
    (n : NodeCode α β γ ε) (nid : String) (st : ExecutionState)
    (p : α) (sh1 : Shared) (err : Nat → ε) (v : β) (r : γ) (sh2 : Shared)
    (hprep : n.prepare st.shared = Except.ok (p, sh1))
    (hm : 1 ≤ n.max_retries)
    (hex : ∀ i, n.execute i p = Except.error (err i))
    (hfb : n.exec_fallback p (err (n.max_retries - 1)) = Except.ok v)
    (hcl : n.cleanup sh1 p (some v) = Except.ok (r, sh2)) :
    runNode n nid st =
      (Except.ok r,
        { st with shared := sh2,
                  node_statuses := dictInsert st.node_statuses nid NodeStatus.completed }) ∧
    dictLookup (runNode n nid st).2.node_statuses nid = some NodeStatus.completed := by
  have hretry : execute_with_retry n p = Except.ok (some v) := by
    rw [execute_with_retry,
      retryFrom_all_fail n p err hex n.max_retries 0 (by omega) (by omega), hfb]
    rfl
  have hrun : runNode n nid st =
      (Except.ok r,
        { st with shared := sh2,
                  node_statuses := dictInsert st.node_statuses nid NodeStatus.completed }) := by
    rw [runNode, hprep]
    simp only [hretry, hcl]
  exact ⟨hrun, by rw [hrun]; exact dictLookup_insert_self _ _ _⟩

/-- Concrete node for the C4 witness: two attempts, both raise `7`, the
fallback returns the error plus one, cleanup passes the execution result
through. -/
def nodeFallbackDemo : NodeCode Unit Nat Nat Nat :=
  { max_retries := 2
    prepare := fun sh => Except.ok ((), sh)
    execute := fun _ _ => Except.error 7
    exec_fallback := fun _ e => Except.ok (e + 1)
    cleanup := fun sh _ er =>
      Except.ok ((match er with | some b => b | none => 0), sh) }

/-- An execution state with empty shared state and no statuses. -/
def stEmpty : ExecutionState :=
  { shared := []
    next_node_id := some "n"
    workflow_status := WorkflowStatus.RUNNING
    node_statuses := []
    awaiting_input := none
    previous_node_id := none
    metadata := [] }

/-- Witness for C4: the demo node completes with the fallback value `8` and
is marked `completed`. -/
theorem c4_fallback_value_reaches_cleanup_witness :
    runNode nodeFallbackDemo "n" stEmpty =
      (Except.ok 8,
        { stEmpty with shared := [],
                       node_statuses :=
                         dictInsert stEmpty.node_statuses "n" NodeStatus.completed }) ∧
    dictLookup (runNode nodeFallbackDemo "n" stEmpty).2.node_statuses "n" =
      some NodeStatus.completed :=
  c4_fallback_value_reaches_cleanup nodeFallbackDemo "n" stEmpty () []
    (fun _ => 7) 8 8 [] rfl (by decide) (fun _ => rfl) rfl rfl

/-- Claim C5 as amended: exceptions in `prepare` and in `cleanup` are never
retried and propagate immediately out of `run`; a `cleanup` exception marks
the node `failed` before propagating, while a `prepare` exception leaves the
execution state (including `node_statuses`) untouched, because `prepare`
runs before the `try` block of machine.py line 141. -/
theorem c5_prepare_cleanup_not_retried {α β γ ε : Type}
    (n : NodeCode α β γ ε) (nid : String) (st : ExecutionState) (e : ε) :
    (n.prepare st.shared = Except.error e → runNode n nid st = (Except.error e, st)) ∧
    (∀ (p : α) (sh1 : Shared) (r : Option β),
      n.prepare st.shared = Except.ok (p, sh1) →
      execute_with_retry n p = Except.ok r →
      n.cleanup sh1 p r = Except.error e →
      runNode n nid st =
        (Except.error e,
          { st with shared := sh1,
                    node_statuses := dictInsert st.node_statuses nid NodeStatus.failed })) := by
  constructor
  · intro h
    rw [runNode, h]
  · intro p sh1 r h1 h2 h3
    rw [runNode, h1]
    simp only [h2, h3, dictInsert_insert_same]

/-- Node whose `prepare` raises `3`. -/
def nodePrepFail : NodeCode Unit Nat Nat Nat :=
  { max_retries := 1
    prepare := fun _ => Except.error 3
    execute := fun _ _ => Except.ok 0
    exec_fallback := fun _ e => Except.error e
    cleanup := fun sh _ _ => Except.ok (0, sh) }

/-- Node whose `cleanup` raises `9` after a successful `execute`. -/
def nodeCleanupFail : NodeCode Unit Nat Nat Nat :=
  { max_retries := 1
    prepare := fun sh => Except.ok ((), sh)
    execute := fun _ _ => Except.ok 5
    exec_fallback := fun _ e => Except.error e
    cleanup := fun _ _ _ => Except.error 9 }

/-- Witness for the amended C5: the prepare-failure node propagates `3` with
the state untouched; the cleanup-failure node propagates `9` with its status
entry set to `failed`. -/
theorem c5_prepare_cleanup_not_retried_witness :
    runNode nodePrepFail "p" stEmpty = (Except.error 3, stEmpty) ∧
    runNode nodeCleanupFail "p" stEmpty =
      (Except.error 9,
        { stEmpty with shared := [],
                       node_statuses :=
                         dictInsert stEmpty.node_statuses "p" NodeStatus.failed }) :=
  ⟨(c5_prepare_cleanup_not_retried nodePrepFail "p" stEmpty 3).1 rfl,
   (c5_prepare_cleanup_not_retried nodeCleanupFail "p" stEmpty 9).2 () [] (some 5)
     rfl rfl rfl⟩

/-- Counterexample to claim C5 as stated: when `prepare` raises, the
exception propagates out of `run` but the node's entry in `node_statuses` is
NOT set to `failed` — `prepare` runs outside the `try`/`except` of
machine.py lines 141-150, so the state is left untouched. -/
theorem c5_counterexample :
    (runNode nodePrepFail "p" stEmpty).1 = Except.error 3 ∧
    dictLookup (runNode nodePrepFail "p" stEmpty).2.node_statuses "p" ≠
      some NodeStatus.failed := by
  constructor
  · rfl
  · intro h
    simp [runNode, nodePrepFail, stEmpty, dictLookup] at h

/-- The `input_data` argument of `step`/`execute_node`: Python `None` or a
dict whose values may themselves be `None` (modelled by the inner `Option`). -/
abbrev InputData := List (String × Option Value)

/-- The coroutine parked on an input future inside `request_input`
(machine.py line 355): the node id captured by the closure, the awaited
request id, the node's outgoing transitions (the node object survives in the
suspended coroutine), and the rest of the node's work once a value arrives. -/
structure Parked where
  node_id : String
  request_id : String
  transitions : List (String × Transition)
  cont : Option Value → Shared → Shared

/-- The mutable state of one `WorkflowEngine` driving one run.  `steps` is
the in-memory journal (the storage backend persists exactly this list, so it
is not duplicated here); `input_futures` holds the keys of pending
in-process futures; `parked` is the coroutine suspended inside
`request_input`, if any; `resuming` is a future that `step` has resolved and
whose parked coroutine the event loop has yet to run; `clock` models
`datetime.now()`. -/
structure Engine where
  nodes : List (String × NodeDef)
  execution_state : ExecutionState
  steps : List ExecutionState
  input_futures : List String
  parked : Option Parked
  resuming : Option (Parked × Option Value)
  clock : Nat

/-- `WorkflowEngine.save_state` (machine.py lines 309-325): annotate the
metadata with the save time and the step index (the current journal length),
then append a deep copy of the state to the journal. -/
def save_state (e : Engine) : Engine :=
  let md := dictInsert
    (dictInsert e.execution_state.metadata "save_time" (MValue.mnat e.clock))
    "step" (MValue.mnat e.steps.length)
  let es := { e.execution_state with metadata := md }
  { e with execution_state := es, steps := e.steps ++ [es] }

/-- The new-run branch of `WorkflowEngine.__init__` (machine.py lines
290-306): seed the execution state at the start node with status `IDLE` and
a single-snapshot journal. -/
def initEngine (nodes : List (String × NodeDef)) (start_node_id : String)
    (initial_shared : Shared) (clock : Nat) : Engine :=
  let es : ExecutionState :=
    { shared := initial_shared
      next_node_id := some start_node_id
      workflow_status := WorkflowStatus.IDLE
      node_statuses := []
      awaiting_input := none
      previous_node_id := none
      metadata := [("start_time", MValue.mnat clock), ("step", MValue.mnat 0)] }
  { nodes := nodes
    execution_state := es
    steps := [es]
    input_futures := []
    parked := none
    resuming := none
    clock := clock }

/-- `actual_request_id` (machine.py line 331): `request_id if request_id
else node_id` — `None` and the empty string are falsy. -/
def actualRequestId (node_id : String) (request_id : Option String) : String :=
  match request_id with
  | some r => if r = "" then node_id else r
  | none => node_id

/-- The synchronous-answer check of `request_input` (machine.py lines
333-336): a value is returned immediately iff `input_data` is truthy, maps
the request id, and the mapped value is not `None`. -/
def availInput (input_data : Option InputData) (rid : String) : Option Value :=
  match input_data with
  | none => none
  | some d =>
    if d = [] then none
    else
      match dictLookup d rid with
      | some (some v) => some v
      | _ => none

/-- Python `self._input_futures[rid] = future` (machine.py line 354): dict
keys are unique. -/
def insertFuture (fs : List String) (rid : String) : List String :=
  if rid ∈ fs then fs else fs ++ [rid]

/-- The `request_input` closure of `WorkflowEngine.execute_node` (machine.py
lines 330-355).  Result `(some v, e)` means the input was already available
and is returned synchronously with nothing mutated; `(none, e1)` means the
node suspends: its status becomes `waiting_for_input`, the awaiting-input
record is populated, the workflow status becomes `WAITING_FOR_INPUT`, the
save callback appends a snapshot, a future is registered under the request
id, and the coroutine parks on it. -/
def request_input_model (e : Engine) (node_id : String) (input_data : Option InputData)
    (prompt : Option String) (options : Option (List String)) (input_type : String)
    (request_id : Option String) (cont : Option Value → Shared → Shared) :
    Option Value × Engine :=
  let rid := actualRequestId node_id request_id
  match availInput input_data rid with
  | some v => (some v, e)
  | none =>
    let es := e.execution_state
    let es1 :=
      { es with
          node_statuses := dictInsert es.node_statuses node_id NodeStatus.waiting_for_input
          awaiting_input := some
            { node_id := node_id, request_id := rid, prompt := prompt,
              options := options, input_type := input_type }
          workflow_status := WorkflowStatus.WAITING_FOR_INPUT }
    let e1 := save_state { e with execution_state := es1 }
    (none,
      { e1 with
          input_futures := insertFuture e1.input_futures rid
          parked := some
            { node_id := node_id, request_id := rid,
              transitions := match dictLookup e.nodes node_id with
                             | some n => n.transitions
                             | none => []
              cont := cont } })

/-- Outcome of `WorkflowEngine.execute_node` as seen by `step`: the node ran
to completion and the edge selector produced `next`, or the node parked on an
input future, or an exception is propagating. -/
inductive ExecOutcome where
  | ret : Option String → ExecOutcome
  | suspended : ExecOutcome
  | raised : String → ExecOutcome
deriving DecidableEq

/-- `WorkflowEngine.execute_node` (machine.py lines 327-360), with the
node's user code abstracted by its `NodeBehavior`: run the node (which may
consult `request_input`), record its terminal status, and on completion run
the edge selector on the post-execution state.  A missing node id raises
(Python `KeyError` on `self.nodes[node_id]`). -/
def execute_node_model (ev : Evaluator) (e : Engine) (node_id : String)
    (input_data : Option InputData) : Engine × ExecOutcome :=
  match dictLookup e.nodes node_id with
  | none => (e, ExecOutcome.raised "KeyError")
  | some node =>
    match node.behavior with
    | NodeBehavior.completes f =>
      let es := e.execution_state
      let es1 := { es with
                     shared := f es.shared
                     node_statuses := dictInsert es.node_statuses node_id NodeStatus.completed }
      (({ e with execution_state := es1 }),
        ExecOutcome.ret (get_next_node_id ev node.transitions es1))
    | NodeBehavior.raises msg =>
      let es := e.execution_state
      let es1 := { es with
                     node_statuses := dictInsert es.node_statuses node_id NodeStatus.failed }
      (({ e with execution_state := es1 }), ExecOutcome.raised msg)
    | NodeBehavior.asksInput prompt options input_type request_id cont =>
      match request_input_model e node_id input_data prompt options input_type request_id cont with
      | (some v, e1) =>
        let es := e1.execution_state
        let es1 := { es with
                       shared := cont (some v) es.shared
                       node_statuses := dictInsert es.node_statuses node_id NodeStatus.completed }
        (({ e1 with execution_state := es1 }),
          ExecOutcome.ret (get_next_node_id ev node.transitions es1))
      | (none, e1) => (e1, ExecOutcome.suspended)

/-- Return value of one `step` invocation: the Python booleans, a step whose
coroutine is still parked on an input future (it has not returned), or a
propagating exception. -/
inductive StepRet where
  | retTrue
  | retFalse
  | parkedStep
  | raised : String → StepRet
deriving DecidableEq

/-- Lines 405-421 of `WorkflowEngine.step`: record the previous node, store
the freshly selected `next_node_id`, drop back to `IDLE`, flip to
`COMPLETED` when nothing is pending, append the step snapshot, and report
whether the workflow is still active. -/
def finishStep (e : Engine) (current : String) (nxt : Option String) : Engine × StepRet :=
  let es1 := e.execution_state
  let es2 := { es1 with
                 previous_node_id := some current
                 next_node_id := nxt
                 workflow_status := WorkflowStatus.IDLE }
  let es3 := if es2.next_node_id = none ∧ es2.awaiting_input = none then
               { es2 with workflow_status := WorkflowStatus.COMPLETED }
             else es2
  let e2 := save_state { e with execution_state := es3 }
  (e2,
    if e2.execution_state.workflow_status = WorkflowStatus.COMPLETED then StepRet.retFalse
    else StepRet.retTrue)

/-- Lines 396-427 of `WorkflowEngine.step`: set status `RUNNING`, read the
current node from `next_node_id`, execute it, and either finish the step,
stay parked on the input future, or mark the workflow `FAILED`, persist, and
re-raise. -/
def stepExecute (ev : Evaluator) (e : Engine) (input_data : Option InputData) :
    Engine × StepRet :=
  let e0 := { e with execution_state :=
                { e.execution_state with workflow_status := WorkflowStatus.RUNNING } }
  match e0.execution_state.next_node_id with
  | none =>
    let e1 := save_state
      { e0 with execution_state :=
          { e0.execution_state with workflow_status := WorkflowStatus.FAILED } }
    (e1, StepRet.raised "KeyError")
  | some current =>
    match execute_node_model ev e0 current input_data with
    | (e1, ExecOutcome.ret nxt) => finishStep e1 current nxt
    | (e1, ExecOutcome.suspended) => (e1, StepRet.parkedStep)
    | (e1, ExecOutcome.raised msg) =>
      let e2 := save_state
        { e1 with execution_state :=
            { e1.execution_state with workflow_status := WorkflowStatus.FAILED } }
      (e2, StepRet.raised msg)

/-- The input-delivery test of machine.py lines 367-371: `None`/empty
`input_data`, or a missing request id, mean the workflow keeps waiting;
otherwise the mapped value (possibly Python `None`) is delivered. -/
def deliverable (input_data : Option InputData) (rid : String) : Option (Option Value) :=
  match input_data with
  | none => none
  | some d => if d = [] then none else dictLookup d rid

/-- `WorkflowEngine.step` (machine.py lines 362-427).  One invocation of the
`step` coroutine, up to the point where it returns, parks on an input
future, or raises. -/
def stepFn (ev : Evaluator) (e : Engine) (input_data : Option InputData) :
    Engine × StepRet :=
  let es := e.execution_state
  if (es.next_node_id = none ∧ es.awaiting_input = none) ∨
      es.workflow_status = WorkflowStatus.FAILED then
    (e, StepRet.retFalse)
  else if es.workflow_status = WorkflowStatus.WAITING_FOR_INPUT then
    match es.awaiting_input with
    | none => (e, StepRet.raised "TypeError")
    | some aw =>
      match deliverable input_data aw.request_id with
      | none => (e, StepRet.retTrue)
      | some message =>
        let es1 := { es with awaiting_input := none }
        let es2 := if dictLookup es1.node_statuses aw.node_id =
                       some NodeStatus.waiting_for_input then
                     { es1 with node_statuses := dictRemove es1.node_statuses aw.node_id }
                   else es1
        if aw.request_id ∈ e.input_futures then
          let newResuming := match e.parked with
            | some p => if p.request_id = aw.request_id then some (p, message) else e.resuming
            | none => e.resuming
          let newParked := match e.parked with
            | some p => if p.request_id = aw.request_id then none else some p
            | none => none
          let es3 := { es2 with workflow_status := WorkflowStatus.RUNNING }
          ({ e with execution_state := es3
                    input_futures := e.input_futures.erase aw.request_id
                    parked := newParked
                    resuming := newResuming },
            StepRet.retTrue)
        else
          stepExecute ev
            { e with execution_state := { es2 with next_node_id := some aw.node_id } }
            input_data
  else
    stepExecute ev e input_data

/-- The event loop running the coroutine that `step` resumed by resolving
its future (machine.py lines 386-391 hand the value to the `await` at line
355; the node then finishes and the suspended `step` continues at line 358):
the continuation mutates the shared state, the node is marked `completed`,
the edge selector runs, and the original step finishes and appends its
snapshot. -/
def resumeScheduled (ev : Evaluator) (e : Engine) : Engine × Option StepRet :=
  match e.resuming with
  | none => (e, none)
  | some (p, message) =>
    let e0 := { e with resuming := none }
    let es := e0.execution_state
    let es1 := { es with
                   shared := p.cont message es.shared
                   node_statuses := dictInsert es.node_statuses p.node_id NodeStatus.completed }
    let r := finishStep { e0 with execution_state := es1 } p.node_id
      (get_next_node_id ev p.transitions es1)
    (r.1, some r.2)

/-- The relationship between status, `next_node_id` and `awaiting_input`
that actually holds for every journaled snapshot: `IDLE` snapshots carry
exactly the next node; `WAITING_FOR_INPUT` snapshots carry BOTH the
suspended node (still in `next_node_id`, which `step` never cleared) and the
awaiting-input record; `COMPLETED` snapshots carry neither; `RUNNING` is
never journaled. -/
def snapshotOk (s : ExecutionState) : Bool :=
  match s.workflow_status with
  | WorkflowStatus.IDLE => s.next_node_id.isSome && s.awaiting_input.isNone
  | WorkflowStatus.RUNNING => false
  | WorkflowStatus.COMPLETED => s.next_node_id.isNone && s.awaiting_input.isNone
  | WorkflowStatus.FAILED => true
  | WorkflowStatus.WAITING_FOR_INPUT => s.next_node_id.isSome && s.awaiting_input.isSome

/-- Same shape for the live `execution_state`, which additionally passes
through `RUNNING` between an input delivery and the scheduled resumption. -/
def stateOk (s : ExecutionState) : Bool :=
  match s.workflow_status with
  | WorkflowStatus.IDLE => s.next_node_id.isSome && s.awaiting_input.isNone
  | WorkflowStatus.RUNNING => s.next_node_id.isSome && s.awaiting_input.isNone
  | WorkflowStatus.COMPLETED => s.next_node_id.isNone && s.awaiting_input.isNone
  | WorkflowStatus.FAILED => true
  | WorkflowStatus.WAITING_FOR_INPUT => s.next_node_id.isSome && s.awaiting_input.isSome

/-- Inductive invariant of the engine: every journaled snapshot satisfies
`snapshotOk`, the live state satisfies `stateOk`, and while a resumption is
scheduled the awaiting-input record has already been cleared. -/
def engineInv (e : Engine) : Prop :=
  (∀ s ∈ e.steps, snapshotOk s = true) ∧
  stateOk e.execution_state = true ∧
  (e.resuming.isSome → e.execution_state.awaiting_input = none)

theorem save_state_steps (e : Engine) :
    (save_state e).steps = e.steps ++ [(save_state e).execution_state] := rfl

theorem save_state_length (e : Engine) :
    (save_state e).steps.length = e.steps.length + 1 := by
  rw [save_state_steps]
  simp

theorem snapshotOk_metadata (s : ExecutionState) (md : List (String × MValue)) :
    snapshotOk { s with metadata := md } = snapshotOk s := rfl

theorem finishStep_inv (e : Engine) (current : String) (nxt : Option String)
    (hsteps : ∀ s ∈ e.steps, snapshotOk s = true)
    (hawait : e.execution_state.awaiting_input = none)
    (hres : e.resuming = none) :
    engineInv (finishStep e current nxt).1 := by
  refine ⟨?_, ?_, ?_⟩
  · intro s hs
    cases nxt with
    | none =>
      simp only [finishStep, hawait, save_state] at hs ⊢
      simp at hs
      rcases hs with hs | hs
      · exact hsteps s hs
      · subst hs; rfl
    | some c =>
      simp only [finishStep, hawait, save_state] at hs ⊢
      simp at hs
      rcases hs with hs | hs
      · exact hsteps s hs
      · subst hs; rfl
  · cases nxt with
    | none => simp [finishStep, hawait, save_state, stateOk]
    | some c => simp [finishStep, hawait, save_state, stateOk]
  · cases nxt with
    | none => simp [finishStep, hawait, save_state, hres]
    | some c => simp [finishStep, hawait, save_state, hres]

theorem stepExecute_inv (ev : Evaluator) (e : Engine) (d : Option InputData)
    (hsteps : ∀ s ∈ e.steps, snapshotOk s = true)
    (hnext : e.execution_state.next_node_id.isSome = true)
    (hawait : e.execution_state.awaiting_input = none)
    (hres : e.resuming = none) :
    engineInv (stepExecute ev e d).1 := by
  obtain ⟨c, hc⟩ := Option.isSome_iff_exists.mp hnext
  rw [stepExecute]
  simp only [hc]
  cases hnode : dictLookup e.nodes c with
  | none =>
    simp only [execute_node_model, hnode]
    refine ⟨?_, ?_, ?_⟩
    · intro s hs
      simp [save_state] at hs
      rcases hs with hs | hs
      · exact hsteps s hs
      · subst hs
        simp [snapshotOk]
    · simp [save_state, stateOk]
    · simp [save_state, hres]
  | some node =>
    cases hb : node.behavior with
    | completes f =>
      simp only [execute_node_model, hnode, hb]
      exact finishStep_inv _ c _ hsteps hawait hres
    | raises msg =>
      simp only [execute_node_model, hnode, hb]
      refine ⟨?_, ?_, ?_⟩
      · intro s hs
        simp [save_state] at hs
        rcases hs with hs | hs
        · exact hsteps s hs
        · subst hs
          simp [snapshotOk]
      · simp [save_state, stateOk]
      · simp [save_state, hres]
    | asksInput prompt options ty rid cont =>
      simp only [execute_node_model, hnode, hb]
      cases havail : availInput d (actualRequestId c rid) with
      | some v =>
        simp only [request_input_model, havail]
        exact finishStep_inv _ c _ hsteps hawait hres
      | none =>
        simp only [request_input_model, havail]
        refine ⟨?_, ?_, ?_⟩
        · intro s hs
          simp [save_state] at hs
          rcases hs with hs | hs
          · exact hsteps s hs
          · subst hs
            simp [snapshotOk, hc]
        · simp [save_state, stateOk, hc]
        · simp [save_state, hres]

theorem engineInv_stepFn (ev : Evaluator) (e : Engine) (d : Option InputData)
    (h : engineInv e) (hres : e.resuming = none) : engineInv (stepFn ev e d).1 := by
  obtain ⟨hsteps, hstate, _⟩ := h
  by_cases h1 : (e.execution_state.next_node_id = none ∧
      e.execution_state.awaiting_input = none) ∨
      e.execution_state.workflow_status = WorkflowStatus.FAILED
  · simp only [stepFn, if_pos h1]
    exact ⟨hsteps, hstate, by simp [hres]⟩
  · by_cases h2 : e.execution_state.workflow_status = WorkflowStatus.WAITING_FOR_INPUT
    · have hw : e.execution_state.next_node_id.isSome = true ∧
          e.execution_state.awaiting_input.isSome = true := by
        have := hstate
        rw [stateOk, h2] at this
        simpa using this
      cases haw : e.execution_state.awaiting_input with
      | none =>
        rw [haw] at hw
        simp at hw
      | some aw =>
        cases hdel : deliverable d aw.request_id with
        | none =>
          have hred : (stepFn ev e d).1 = e := by
            simp [stepFn, haw, h2, hdel]
          rw [hred]
          exact ⟨hsteps, hstate, by simp [hres]⟩
        | some message =>
          by_cases hfut : aw.request_id ∈ e.input_futures
          · refine ⟨?_, ?_, ?_⟩
            · simp only [stepFn]
              simp [haw, h2, hdel, hfut]
              exact hsteps
            · simp only [stepFn]
              simp [haw, h2, hdel, hfut, stateOk]
              split <;> simpa using hw.1
            · simp only [stepFn]
              simp [haw, h2, hdel, hfut]
              intro hsome
              split <;> rfl
          · have hred : (stepFn ev e d).1 =
                (stepExecute ev
                  { e with execution_state :=
                      { (if dictLookup e.execution_state.node_statuses aw.node_id =
                            some NodeStatus.waiting_for_input then
                          { e.execution_state with
                              awaiting_input := none
                              node_statuses :=
                                dictRemove e.execution_state.node_statuses aw.node_id }
                        else { e.execution_state with awaiting_input := none }) with
                          next_node_id := some aw.node_id } } d).1 := by
              simp only [stepFn]
              simp [haw, h2, hdel, hfut]
            rw [hred]
            apply stepExecute_inv
            · exact hsteps
            · rfl
            · split <;> rfl
            · exact hres
    · simp only [stepFn, if_neg h1, if_neg h2]
      apply stepExecute_inv ev e d hsteps ?_ ?_ hres
      · cases hst : e.execution_state.workflow_status with
        | IDLE =>
          have := hstate
          rw [stateOk, hst] at this
          rw [Bool.and_eq_true] at this
          exact this.1
        | RUNNING =>
          have := hstate
          rw [stateOk, hst] at this
          rw [Bool.and_eq_true] at this
          exact this.1
        | COMPLETED =>
          have := hstate
          rw [stateOk, hst] at this
          simp at this
          exact absurd (Or.inl ⟨this.1, this.2⟩) h1
        | FAILED => exact absurd (Or.inr hst) h1
        | WAITING_FOR_INPUT => exact absurd hst h2
      · cases hst : e.execution_state.workflow_status with
        | IDLE =>
          have := hstate
          rw [stateOk, hst] at this
          rw [Bool.and_eq_true] at this
          exact Option.isNone_iff_eq_none.mp this.2
        | RUNNING =>
          have := hstate
          rw [stateOk, hst] at this
          rw [Bool.and_eq_true] at this
          exact Option.isNone_iff_eq_none.mp this.2
        | COMPLETED =>
          have := hstate
          rw [stateOk, hst] at this
          simp at this
          exact absurd (Or.inl ⟨this.1, this.2⟩) h1
        | FAILED => exact absurd (Or.inr hst) h1
        | WAITING_FOR_INPUT => exact absurd hst h2

theorem engineInv_resumeScheduled (ev : Evaluator) (e : Engine)
    (h : engineInv e) : engineInv (resumeScheduled ev e).1 := by
  obtain ⟨hsteps, hstate, hresaw⟩ := h
  cases hres : e.resuming with
  | none =>
    simp only [resumeScheduled, hres]
    exact ⟨hsteps, hstate, by simp [hres]⟩
  | some pm =>
    obtain ⟨p, message⟩ := pm
    have haw : e.execution_state.awaiting_input = none := hresaw (by simp [hres])
    simp only [resumeScheduled, hres]
    exact finishStep_inv _ p.node_id _ hsteps haw rfl

theorem engineInv_initEngine (nodes : List (String × NodeDef)) (start : String)
    (shared : Shared) (clock : Nat) : engineInv (initEngine nodes start shared clock) := by
  refine ⟨?_, ?_, ?_⟩
  · intro s hs
    simp [initEngine] at hs
    subst hs
    rfl
  · rfl
  · intro h
    simp [initEngine] at h

/-- States of one engine reachable from a fresh run: the constructor's
new-run branch, `step` invocations (the `run` driver yields to the event
loop after resolving a future, so a new `step` begins only when no resumed
coroutine is pending), and the event-loop transition that completes a
resumed coroutine. -/
inductive Reach (ev : Evaluator) : Engine → Prop where
  | init : ∀ (nodes : List (String × NodeDef)) (start : String) (shared : Shared)
      (clock : Nat), Reach ev (initEngine nodes start shared clock)
  | step : ∀ (e : Engine) (d : Option InputData), Reach ev e → e.resuming = none →
      Reach ev (stepFn ev e d).1
  | resume : ∀ (e : Engine), Reach ev e → Reach ev (resumeScheduled ev e).1

theorem reach_engineInv (ev : Evaluator) (e : Engine) (h : Reach ev e) : engineInv e := by
  induction h with
  | init nodes start shared clock => exact engineInv_initEngine nodes start shared clock
  | step e d _ hres ih => exact engineInv_stepFn ev e d ih hres
  | resume e _ ih => exact engineInv_resumeScheduled ev e ih

/-- Evaluator used in concrete runs: every guard evaluation raises (none of
the concrete nodes below has a guard that is ever evaluated). -/
def evStub : Evaluator := fun _ _ => none

/-- A node that completes without mutating the shared state and has no
outgoing edges. -/
def nodeA : NodeDef :=
  { id := "A", transitions := [], behavior := NodeBehavior.completes id }

/-- A fresh run of the one-node workflow `A`. -/
def engA : Engine := initEngine [("A", nodeA)] "A" [] 0

/-- `engA` after one step: node `A` ran, the workflow completed. -/
def engADone : Engine := (stepFn evStub engA none).1

/-- A node that requests input (`prompt="name?"`) and, once an answer
arrives, completes without mutating the shared state. -/
def nodeAsk : NodeDef :=
  { id := "W", transitions := []
    behavior := NodeBehavior.asksInput (some "name?") none "text" none (fun _ sh => sh) }

/-- A fresh run of the one-node workflow `W` whose node asks for input. -/
def engAsk : Engine := initEngine [("W", nodeAsk)] "W" [] 0

/-- `engAsk` after one step with no input: node `W` suspended inside
`request_input`, which appended a snapshot via the save callback. -/
def engAsk1 : Engine := (stepFn evStub engAsk none).1

theorem finishStep_length (e : Engine) (c : String) (nxt : Option String) :
    (finishStep e c nxt).1.steps.length = e.steps.length + 1 := by
  simp [finishStep, save_state]

theorem stepExecute_steps_length (ev : Evaluator) (e : Engine) (d : Option InputData) :
    (stepExecute ev e d).1.steps.length = e.steps.length + 1 := by
  rw [stepExecute]
  cases hc : e.execution_state.next_node_id with
  | none => simp [save_state]
  | some c =>
    simp only []
    cases hnode : dictLookup e.nodes c with
    | none => simp [execute_node_model, hnode, save_state]
    | some node =>
      cases hb : node.behavior with
      | completes f =>
        simp only [execute_node_model, hnode, hb]
        exact finishStep_length _ _ _
      | raises msg =>
        simp [execute_node_model, hnode, hb, save_state]
      | asksInput prompt options ty rid cont =>
        simp only [execute_node_model, hnode, hb]
        cases havail : availInput d (actualRequestId c rid) with
        | some v =>
          simp only [request_input_model, havail]
          exact finishStep_length _ _ _
        | none =>
          simp [request_input_model, havail, save_state]

/-- Claim C6 as amended: the snapshots appended by one `step` invocation
depend on the path taken — the inactive-guard return, the still-waiting
return, and the delivery of input to a live in-process future append NONE;
every path that executes a node (normal execution, cross-process
re-execution after resume, a node suspending inside `request_input`, and the
failure path) appends exactly one; and the event-loop completion of a
resumed coroutine appends one more on behalf of the `step` that originally
suspended. -/
theorem c6_step_snapshot_counts (ev : Evaluator) (e : Engine) (d : Option InputData) :
    (((e.execution_state.next_node_id = none ∧ e.execution_state.awaiting_input = none) ∨
        e.execution_state.workflow_status = WorkflowStatus.FAILED) →
      (stepFn ev e d).1.steps = e.steps) ∧
    (∀ aw, e.execution_state.workflow_status = WorkflowStatus.WAITING_FOR_INPUT →
      e.execution_state.awaiting_input = some aw →
      deliverable d aw.request_id = none →
      (stepFn ev e d).1.steps = e.steps) ∧
    (∀ aw message, e.execution_state.workflow_status = WorkflowStatus.WAITING_FOR_INPUT →
      e.execution_state.awaiting_input = some aw →
      deliverable d aw.request_id = some message →
      aw.request_id ∈ e.input_futures →
      (stepFn ev e d).1.steps = e.steps) ∧
    (¬ ((e.execution_state.next_node_id = none ∧ e.execution_state.awaiting_input = none) ∨
        e.execution_state.workflow_status = WorkflowStatus.FAILED) →
      e.execution_state.workflow_status ≠ WorkflowStatus.WAITING_FOR_INPUT →
      (stepFn ev e d).1.steps.length = e.steps.length + 1) ∧
    (∀ aw message, e.execution_state.workflow_status = WorkflowStatus.WAITING_FOR_INPUT →
      e.execution_state.awaiting_input = some aw →
      deliverable d aw.request_id = some message →
      aw.request_id ∉ e.input_futures →
      (stepFn ev e d).1.steps.length = e.steps.length + 1) ∧
    (e.resuming = none → (resumeScheduled ev e).1.steps = e.steps) ∧
    (∀ p message, e.resuming = some (p, message) →
      (resumeScheduled ev e).1.steps.length = e.steps.length + 1) := by
  refine ⟨?_, ?_, ?_, ?_, ?_, ?_, ?_⟩
  · intro h
    simp only [stepFn, if_pos h]
  · intro aw h2 haw hdel
    simp [stepFn, haw, h2, hdel]
  · intro aw message h2 haw hdel hfut
    simp [stepFn, haw, h2, hdel, hfut]
  · intro h1 h2
    simp only [stepFn, if_neg h1, if_neg h2]
    exact stepExecute_steps_length ev e d
  · intro aw message h2 haw hdel hfut
    have h1 : ¬ ((e.execution_state.next_node_id = none ∧
        e.execution_state.awaiting_input = none) ∨
        e.execution_state.workflow_status = WorkflowStatus.FAILED) := by
      intro h
      rcases h with ⟨_, hx⟩ | hx
      · rw [haw] at hx; cases hx
      · rw [h2] at hx; cases hx
    simp only [stepFn]
    simp [haw, h2, hdel, hfut]
    rw [stepExecute_steps_length]
  · intro h
    simp [resumeScheduled, h]
  · intro p message h
    simp only [resumeScheduled, h]
    rw [finishStep_length]

/-- Witness for the amended C6: stepping the completed run `engADone`
appends nothing, while the step that executes node `A` in the fresh run
`engA` appends exactly one snapshot. -/
theorem c6_step_snapshot_counts_witness :
    (stepFn evStub engADone none).1.steps = engADone.steps ∧
    (stepFn evStub engA none).1.steps.length = engA.steps.length + 1 :=
  ⟨(c6_step_snapshot_counts evStub engADone none).1 (Or.inl ⟨rfl, rfl⟩),
   (c6_step_snapshot_counts evStub engA none).2.2.2.1 (by decide) (by decide)⟩

/-- Counterexample to claim C6: stepping the reachable completed engine
`engADone` returns `False` without raising but appends NO snapshot — the
journal stays at length 2 — so a successful `step` invocation does not
always grow the journal by one. -/
theorem c6_counterexample :
    Reach evStub engADone ∧
    (stepFn evStub engADone none).2 = StepRet.retFalse ∧
    (stepFn evStub engADone none).1.steps.length = engADone.steps.length ∧
    engADone.steps.length = 2 :=
  ⟨Reach.step engA none (Reach.init _ _ _ _) rfl, rfl, rfl, rfl⟩

/-- Claim C10: `request_input` answers synchronously from `input_data`
exactly when `input_data` is a non-empty dict mapping the request id to a
non-`None` value (first and third conjuncts); otherwise — mapped value
`None` or key absent — the node suspends: its status entry becomes
`waiting_for_input`, the awaiting-input record is populated with the node
id, request id, prompt, options and input kind, and the workflow status
becomes `WAITING_FOR_INPUT` (second conjunct). -/
theorem c10_request_input (e : Engine) (node_id : String) (d : Option InputData)
    (prompt : Option String) (options : Option (List String)) (ty : String)
    (request_id : Option String) (cont : Option Value → Shared → Shared) :
    (∀ v, availInput d (actualRequestId node_id request_id) = some v →
      request_input_model e node_id d prompt options ty request_id cont = (some v, e)) ∧
    (availInput d (actualRequestId node_id request_id) = none →
      (request_input_model e node_id d prompt options ty request_id cont).1 = none ∧
      dictLookup (request_input_model e node_id d prompt options ty request_id
          cont).2.execution_state.node_statuses node_id =
        some NodeStatus.waiting_for_input ∧
      (request_input_model e node_id d prompt options ty request_id
          cont).2.execution_state.awaiting_input =
        some { node_id := node_id, request_id := actualRequestId node_id request_id,
               prompt := prompt, options := options, input_type := ty } ∧
      (request_input_model e node_id d prompt options ty request_id
          cont).2.execution_state.workflow_status = WorkflowStatus.WAITING_FOR_INPUT) ∧
    (∀ v, availInput d (actualRequestId node_id request_id) = some v ↔
      ∃ l, d = some l ∧ l ≠ [] ∧
        dictLookup l (actualRequestId node_id request_id) = some (some v)) := by
  refine ⟨?_, ?_, ?_⟩
  · intro v h
    simp [request_input_model, h]
  · intro h
    refine ⟨?_, ?_, ?_, ?_⟩
    · simp [request_input_model, h]
    · simp [request_input_model, h, save_state]
      exact dictLookup_insert_self _ _ _
    · simp [request_input_model, h, save_state]
    · simp [request_input_model, h, save_state]
  · intro v
    rw [availInput.eq_def]
    cases d with
    | none => simp
    | some l =>
      by_cases hl : l = []
      · simp [hl]
      · simp only [if_neg hl]
        cases hlook : dictLookup l (actualRequestId node_id request_id) with
        | none => simp [hlook, hl]
        | some w =>
          cases w with
          | none => simp [hlook, hl]
          | some u => simp [hlook, hl]

/-- Witness for C10: with `input_data = {"W": "Alice"}` the request on node
`W` is answered synchronously with `"Alice"` and nothing is mutated; with no
input data the node suspends with the populated awaiting record. -/
theorem c10_request_input_witness :
    request_input_model engAsk "W" (some [("W", some (Value.vstr "Alice"))])
        (some "name?") none "text" none (fun _ sh => sh) =
      (some (Value.vstr "Alice"), engAsk) ∧
    ((request_input_model engAsk "W" none (some "name?") none "text" none
        (fun _ sh => sh)).1 = none ∧
      dictLookup (request_input_model engAsk "W" none (some "name?") none "text" none
          (fun _ sh => sh)).2.execution_state.node_statuses "W" =
        some NodeStatus.waiting_for_input ∧
      (request_input_model engAsk "W" none (some "name?") none "text" none
          (fun _ sh => sh)).2.execution_state.awaiting_input =
        some { node_id := "W", request_id := actualRequestId "W" none,
               prompt := some "name?", options := none, input_type := "text" } ∧
      (request_input_model engAsk "W" none (some "name?") none "text" none
          (fun _ sh => sh)).2.execution_state.workflow_status =
        WorkflowStatus.WAITING_FOR_INPUT) :=
  ⟨(c10_request_input engAsk "W" (some [("W", some (Value.vstr "Alice"))])
      (some "name?") none "text" none (fun _ sh => sh)).1 (Value.vstr "Alice") rfl,
   (c10_request_input engAsk "W" none (some "name?") none "text" none
      (fun _ sh => sh)).2.1 rfl⟩

/-- Python truthiness of an optional string (`if self.execution_state.previous_node_id:`):
`None` and the empty string are falsy. -/
def truthyStr : Option String → Option String
  | some s => if s = "" then none else some s
  | none => none

/-- `WorkflowEngine._validate_node_compatibility` (machine.py lines
429-455): with an awaiting-input record, only its node is checked; otherwise
the previous node (when truthy) is checked and, when present, the edge
selector is re-run on it to recompute `next_node_id`; with no previous node
the next node is checked.  Error messages name the missing node. -/
def validate_node_compatibility (ev : Evaluator) (nodes : List (String × NodeDef))
    (st : ExecutionState) : Except String ExecutionState :=
  match st.awaiting_input with
  | some aw =>
    if (dictLookup nodes aw.node_id).isNone then
      Except.error ("Cannot resume: Waiting node \x27" ++ aw.node_id ++
        "\x27 is missing from current workflow")
    else Except.ok st
  | none =>
    match truthyStr st.previous_node_id with
    | some p =>
      match dictLookup nodes p with
      | none =>
        Except.error ("Cannot resume: Previous node \x27" ++ p ++
          "\x27 is missing from current workflow")
      | some pn =>
        Except.ok { st with next_node_id := get_next_node_id ev pn.transitions st }
    | none =>
      match st.next_node_id with
      | some nx =>
        if (dictLookup nodes nx).isNone then
          Except.error ("Cannot resume: Current node \x27" ++ nx ++
            "\x27 is missing from current workflow")
        else Except.ok st
      | none =>
        Except.error "Cannot resume: Current node \x27None\x27 is missing from current workflow"

/-- A validated state only ever differs from the loaded snapshot in its
`next_node_id` (recomputed when a previous node is present). -/
theorem validate_ok_shape (ev : Evaluator) (nodes : List (String × NodeDef))
    (st es : ExecutionState)
    (h : validate_node_compatibility ev nodes st = Except.ok es) :
    ∃ nx, es = { st with next_node_id := nx } := by
  cases haw : st.awaiting_input with
  | some aw =>
    by_cases hl : (dictLookup nodes aw.node_id).isNone
    · simp [validate_node_compatibility, haw, hl] at h
    · simp [validate_node_compatibility, haw, hl] at h
      exact ⟨st.next_node_id, by rw [← h, ← haw]⟩
  | none =>
    cases hp : truthyStr st.previous_node_id with
    | some p =>
      cases hl : dictLookup nodes p with
      | none => simp [validate_node_compatibility, haw, hp, hl] at h
      | some pn =>
        simp [validate_node_compatibility, haw, hp, hl] at h
        exact ⟨get_next_node_id ev pn.transitions st, by rw [← h]⟩
    | none =>
      cases hn : st.next_node_id with
      | some nx =>
        by_cases hl : (dictLookup nodes nx).isNone
        · simp [validate_node_compatibility, haw, hp, hn, hl] at h
        · simp [validate_node_compatibility, haw, hp, hn, hl] at h
          exact ⟨st.next_node_id, by rw [← h, ← haw]⟩
      | none => simp [validate_node_compatibility, haw, hp, hn] at h

/-- Claim C8: resume validation fails with an error naming exactly the
missing node — the awaiting node when an awaiting-input record is present,
otherwise a truthy previous node, otherwise the next node — and when the
previous node is present and loaded, `next_node_id` is recomputed by
re-running the edge selector on it.  A present awaiting node validates
without any recomputation. -/
theorem c8_resume_validation (ev : Evaluator) (nodes : List (String × NodeDef))
    (st : ExecutionState) :
    (∀ aw, st.awaiting_input = some aw → dictLookup nodes aw.node_id = none →
      validate_node_compatibility ev nodes st =
        Except.error ("Cannot resume: Waiting node \x27" ++ aw.node_id ++
          "\x27 is missing from current workflow")) ∧
    (∀ p, st.awaiting_input = none → st.previous_node_id = some p → p ≠ "" →
      dictLookup nodes p = none →
      validate_node_compatibility ev nodes st =
        Except.error ("Cannot resume: Previous node \x27" ++ p ++
          "\x27 is missing from current workflow")) ∧
    (∀ nx, st.awaiting_input = none → truthyStr st.previous_node_id = none →
      st.next_node_id = some nx → dictLookup nodes nx = none →
      validate_node_compatibility ev nodes st =
        Except.error ("Cannot resume: Current node \x27" ++ nx ++
          "\x27 is missing from current workflow")) ∧
    (∀ p pn, st.awaiting_input = none → st.previous_node_id = some p → p ≠ "" →
      dictLookup nodes p = some pn →
      validate_node_compatibility ev nodes st =
        Except.ok { st with next_node_id := get_next_node_id ev pn.transitions st }) ∧
    (∀ aw, st.awaiting_input = some aw → (dictLookup nodes aw.node_id).isSome →
      validate_node_compatibility ev nodes st = Except.ok st) := by
  refine ⟨?_, ?_, ?_, ?_, ?_⟩
  · intro aw haw hl
    simp [validate_node_compatibility, haw, hl]
  · intro p haw hp hpe hl
    simp [validate_node_compatibility, haw, truthyStr, hp, hpe, hl]
  · intro nx haw hp hn hl
    simp [validate_node_compatibility, haw, hp, hn, hl]
  · intro p pn haw hp hpe hl
    simp [validate_node_compatibility, haw, truthyStr, hp, hpe, hl]
  · intro aw haw hl
    simp [validate_node_compatibility, haw, Option.isNone_iff_eq_none]
    intro hc
    rw [hc] at hl
    cases hl

/-- A state whose snapshot references previous node `X`. -/
def stPrevX : ExecutionState :=
  { shared := []
    next_node_id := some "n"
    workflow_status := WorkflowStatus.IDLE
    node_statuses := []
    awaiting_input := none
    previous_node_id := some "X"
    metadata := [] }

/-- The ancestor snapshot used in the fork scenario: previous node `P`,
stored next node `X`. -/
def sdC7 : ExecutionState :=
  { shared := []
    next_node_id := some "X"
    workflow_status := WorkflowStatus.IDLE
    node_statuses := []
    awaiting_input := none
    previous_node_id := some "P"
    metadata := [] }

/-- Current graph for the fork scenario: node `P` now has a single
unconditional edge to `Y`. -/
def nodePY : NodeDef :=
  addEdges (emptyNode "P") [{ from_id := "P", to_id := "Y", condition := "True" }]

/-- Node set of the resume scenarios. -/
def nodesC7 : List (String × NodeDef) := [("P", nodePY)]

/-- Witness for C8: with a graph lacking node `X`, resuming a snapshot whose
`previous_node_id` is `X` fails naming `X`; and the validated `sdC7`
snapshot gets its `next_node_id` recomputed on node `P`. -/
theorem c8_resume_validation_witness :
    validate_node_compatibility evStub [] stPrevX =
      Except.error "Cannot resume: Previous node \x27X\x27 is missing from current workflow" ∧
    validate_node_compatibility evStub nodesC7 sdC7 =
      Except.ok { sdC7 with
                    next_node_id := get_next_node_id evStub nodePY.transitions sdC7 } :=
  ⟨(c8_resume_validation evStub [] stPrevX).2.1 "X" rfl rfl (by decide) rfl,
   (c8_resume_validation evStub nodesC7 sdC7).2.2.2.1 "P" nodePY rfl rfl (by decide) rfl⟩

/-- The storage backend as the engine observes it (§ lines 262, 306): a map
from `(workflow_id, run_id)` to the persisted journal; `save_state` replaces
the run's journal atomically. -/
abbrev Storage := List ((String × String) × List ExecutionState)

/-- `StorageBackend.save_state(workflow_id, run_id, steps)`. -/
def storage_save (storage : Storage) (wf run : String)
    (steps : List ExecutionState) : Storage :=
  dictInsert storage (wf, run) steps

/-- `StorageBackend.load_state(workflow_id, run_id)`. -/
def load_state (storage : Storage) (wf run : String) : Option (List ExecutionState) :=
  dictLookup storage (wf, run)

/-- A new run id (machine.py line 291): timestamp, `"_"`, 8 random hex
characters. -/
def newRunId (ts hex8 : String) : String := ts ++ "_" ++ hex8

/-- A forked run id (machine.py line 279): timestamp, `"_fork_"`, 6 random
hex characters. -/
def forkRunId (ts hex6 : String) : String := ts ++ "_fork_" ++ hex6

/-- A forked run id can never equal a new-run id: their lengths differ
(15+6+6 = 27 versus 15+1+8 = 24). -/
theorem forkRunId_ne_newRunId (ts1 hex8 ts2 hex6 : String)
    (hts1 : ts1.length = 15) (hts2 : ts2.length = 15)
    (h8 : hex8.length = 8) (h6 : hex6.length = 6) :
    forkRunId ts2 hex6 ≠ newRunId ts1 hex8 := by
  intro h
  have hlen := congrArg String.length h
  rw [forkRunId, newRunId, String.length_append, String.length_append,
    String.length_append, String.length_append] at hlen
  have l1 : ("_fork_" : String).length = 6 := rfl
  have l2 : ("_" : String).length = 1 := rfl
  rw [l1, l2, hts1, hts2, h8, h6] at hlen
  omega

/-- The fork-metadata update of machine.py lines 280-284: record the
ancestor run id and step, the fork time, and the new run id. -/
def forkMd (md : List (String × MValue)) (run_id : String) (k clock : Nat)
    (minted : String) : List (String × MValue) :=
  dictInsert (dictInsert (dictInsert md
    "forked_from" (MValue.forkedFrom run_id k))
    "fork_time" (MValue.mnat clock))
    "run_id" (MValue.mstr minted)

/-- The resume branch of `WorkflowEngine.__init__` (machine.py lines
260-306): load the ancestor journal, pick the snapshot at `resume_from`
(default: last), validate node compatibility (possibly recomputing
`next_node_id`), then either fork — mint the supplied new run id, stamp
fork metadata, and start a fresh single-entry journal — or continue in the
same run with the journal truncated to the chosen snapshot; in both cases
the resulting journal is persisted.  The result is
`(run_id, journal, execution_state, storage after saving)`. -/
def resume_engine_init (ev : Evaluator) (nodes : List (String × NodeDef))
    (storage : Storage) (wf : String) (run_id : String) (resume_from : Option Nat)
    (fork : Bool) (minted_run_id : String) (clock : Nat) :
    Except String (String × List ExecutionState × ExecutionState × Storage) :=
  match load_state storage wf run_id with
  | none => Except.error "FileNotFoundError: No state found for run_id"
  | some source_steps =>
    let k := match resume_from with
             | some j => j
             | none => source_steps.length - 1
    if k ≥ source_steps.length then
      Except.error "ValueError: Step not found"
    else
      match source_steps.get? k with
      | none => Except.error "IndexError"
      | some step_data =>
        match validate_node_compatibility ev nodes step_data with
        | Except.error m => Except.error m
        | Except.ok es =>
          if fork then
            let es1 := { es with metadata := forkMd es.metadata run_id k clock minted_run_id }
            Except.ok (minted_run_id, [es1], es1,
              storage_save storage wf minted_run_id [es1])
          else
            let steps := source_steps.take (k + 1)
            Except.ok (run_id, steps, es, storage_save storage wf run_id steps)

/-- Claim C7 as amended: forking from a valid snapshot index `k` mints a run
id that differs from a (new-run-format) ancestor run id, produces a
single-entry journal holding the ancestor\x27s snapshot at `k` — with fork
metadata recording the ancestor run id and step `k`, and with
`next_node_id` recomputed by the edge selector whenever the snapshot has a
truthy previous node and no awaiting-input record (the only field validation
may change) — persists it under the new run id, and leaves the ancestor\x27s
stored journal unchanged. -/
theorem c7_fork_journal (ev : Evaluator) (nodes : List (String × NodeDef))
    (storage : Storage) (wf ts1 hex8 ts2 hex6 : String) (k clock : Nat)
    (src : List ExecutionState) (sd es : ExecutionState)
    (hts1 : ts1.length = 15) (hts2 : ts2.length = 15)
    (h8 : hex8.length = 8) (h6 : hex6.length = 6)
    (hload : load_state storage wf (newRunId ts1 hex8) = some src)
    (hk : k < src.length)
    (hget : src.get? k = some sd)
    (hval : validate_node_compatibility ev nodes sd = Except.ok es) :
    resume_engine_init ev nodes storage wf (newRunId ts1 hex8) (some k) true
        (forkRunId ts2 hex6) clock =
      Except.ok (forkRunId ts2 hex6,
        [{ es with metadata := forkMd es.metadata (newRunId ts1 hex8) k clock
                                 (forkRunId ts2 hex6) }],
        { es with metadata := forkMd es.metadata (newRunId ts1 hex8) k clock
                                (forkRunId ts2 hex6) },
        storage_save storage wf (forkRunId ts2 hex6)
          [{ es with metadata := forkMd es.metadata (newRunId ts1 hex8) k clock
                                   (forkRunId ts2 hex6) }]) ∧
    forkRunId ts2 hex6 ≠ newRunId ts1 hex8 ∧
    load_state (storage_save storage wf (forkRunId ts2 hex6)
        [{ es with metadata := forkMd es.metadata (newRunId ts1 hex8) k clock
                                 (forkRunId ts2 hex6) }])
      wf (newRunId ts1 hex8) = some src ∧
    dictLookup (forkMd es.metadata (newRunId ts1 hex8) k clock (forkRunId ts2 hex6))
        "forked_from" = some (MValue.forkedFrom (newRunId ts1 hex8) k) ∧
    (∃ nx, es = { sd with next_node_id := nx }) := by
  have hne : forkRunId ts2 hex6 ≠ newRunId ts1 hex8 :=
    forkRunId_ne_newRunId ts1 hex8 ts2 hex6 hts1 hts2 h8 h6
  have hget2 : src[k]? = some sd := by
    rw [← List.get?_eq_getElem?]
    exact hget
  refine ⟨?_, hne, ?_, ?_, ?_⟩
  · simp [resume_engine_init, hload, Nat.not_le.mpr hk, hget2, hval]
  · rw [load_state, storage_save,
      dictLookup_insert_ne _ _ _ _ (by intro hx; exact hne (congrArg Prod.snd hx))]
    exact hload
  · rw [forkMd, dictLookup_insert_ne _ _ _ _ (by decide),
      dictLookup_insert_ne _ _ _ _ (by decide), dictLookup_insert_self]
  · exact validate_ok_shape ev nodes sd es hval

/-- The ancestor run id of the concrete fork scenario. -/
def runIdAnc : String := newRunId "20250101_120000" "aaaaaaaa"

/-- The minted fork run id of the concrete fork scenario. -/
def runIdFork : String := forkRunId "20250101_120001" "bbbbbb"

/-- The ancestor's stored journal: the single snapshot `sdC7`. -/
def storC7 : Storage := [(("wf", runIdAnc), [sdC7])]

/-- `sdC7` after validation against the current graph: `next_node_id` was
recomputed on node `P`, whose only (unconditional) edge now points to `Y`. -/
def esValC7 : ExecutionState := { sdC7 with next_node_id := some "Y" }

/-- The fork metadata stamped on the forked snapshot. -/
def mdC7 : List (String × MValue) :=
  [("forked_from", MValue.forkedFrom runIdAnc 0),
   ("fork_time", MValue.mnat 5),
   ("run_id", MValue.mstr runIdFork)]

/-- The single entry of the forked journal. -/
def esC7 : ExecutionState := { esValC7 with metadata := mdC7 }

/-- Witness for the amended C7 at the concrete fork scenario. -/
theorem c7_fork_journal_witness :
    resume_engine_init evStub nodesC7 storC7 "wf" runIdAnc (some 0) true runIdFork 5 =
      Except.ok (runIdFork, [esC7], esC7,
        storage_save storC7 "wf" runIdFork [esC7]) ∧
    runIdFork ≠ runIdAnc ∧
    load_state (storage_save storC7 "wf" runIdFork [esC7]) "wf" runIdAnc =
      some [sdC7] ∧
    dictLookup esC7.metadata "forked_from" = some (MValue.forkedFrom runIdAnc 0) ∧
    (∃ nx, esValC7 = { sdC7 with next_node_id := nx }) :=
  c7_fork_journal evStub nodesC7 storC7 "wf" "20250101_120000" "aaaaaaaa"
    "20250101_120001" "bbbbbb" 0 5 [sdC7] sdC7 esValC7
    rfl rfl rfl rfl rfl (by decide) rfl rfl

/-- Counterexample to claim C7: forking `sdC7` (stored `next_node_id = X`)
against the current graph, where `P`'s outgoing edge now leads to `Y`,
produces a forked journal whose single snapshot has `next_node_id = Y` — the
constructor re-ran the edge selector during validation, so the forked entry
is NOT the ancestor's snapshot with only fork metadata added. -/
theorem c7_counterexample :
    sdC7.next_node_id = some "X" ∧
    (match resume_engine_init evStub nodesC7 storC7 "wf" runIdAnc (some 0) true
        runIdFork 5 with
     | Except.ok (_, steps, _, _) => steps.map ExecutionState.next_node_id
     | Except.error _ => []) = [some "Y"] ∧
    (some "Y" : Option String) ≠ some "X" :=
  ⟨rfl, rfl, by decide⟩

/-- Witness for the amended C3 at the two shared states of the scenario. -/
theorem c3_router_always_small_witness :
    get_next_node_id evStub routerNode.transitions (stateX 10) = some "small" ∧
    get_next_node_id evStub routerNode.transitions (stateX 0) = some "small" :=
  ⟨c3_router_always_small evStub (stateX 10), c3_router_always_small evStub (stateX 0)⟩

/-- Witness for C9 on the router node: the stored edge to `small` is the
(only and last) document edge with that destination. -/
theorem c9_transitions_keyed_by_destination_witness :
    dictLookup (addEdges (emptyNode "router") [tRouterBig, tRouterSmall]).transitions
      "small" = some tRouterSmall := by
  rw [(c9_transitions_keyed_by_destination "router" [tRouterBig, tRouterSmall]).2.2 "small"]
  rfl

/-- The snapshot shape that survives for EVERY reachable engine, including
engines seeded by the resume/fork constructor: no snapshot is `RUNNING`,
waiting snapshots carry both the suspended node and the awaiting record,
and `IDLE`/`COMPLETED` snapshots carry no awaiting record.  Nothing is
guaranteed about `next_node_id` outside `WAITING_FOR_INPUT`: validation on
resume can recompute it to `None` on an `IDLE` snapshot (edges changed to
admit no successor) or to a node on a `COMPLETED` snapshot. -/
def snapshotOkW (s : ExecutionState) : Bool :=
  match s.workflow_status with
  | WorkflowStatus.IDLE => s.awaiting_input.isNone
  | WorkflowStatus.RUNNING => false
  | WorkflowStatus.COMPLETED => s.awaiting_input.isNone
  | WorkflowStatus.FAILED => true
  | WorkflowStatus.WAITING_FOR_INPUT =>
      s.next_node_id.isSome && s.awaiting_input.isSome

/-- The weak engine invariant maintained by every reachable engine: all
journaled snapshots satisfy `snapshotOkW`, the live state has no awaiting
record outside `WAITING_FOR_INPUT`/`FAILED`, and a scheduled resumption
implies the awaiting record was already cleared. -/
def engineInvW (e : Engine) : Prop :=
  (∀ s ∈ e.steps, snapshotOkW s = true) ∧
  (e.execution_state.workflow_status ≠ WorkflowStatus.WAITING_FOR_INPUT →
    e.execution_state.workflow_status ≠ WorkflowStatus.FAILED →
    e.execution_state.awaiting_input = none) ∧
  (e.resuming.isSome → e.execution_state.awaiting_input = none)

/-- With an awaiting-input record present, successful validation returns the
snapshot unchanged (machine.py lines 432-438 return before any recompute). -/
theorem validate_ok_awaiting (ev : Evaluator) (nodes : List (String × NodeDef))
    (st es : ExecutionState) (aw : AwaitingInput)
    (haw : st.awaiting_input = some aw)
    (h : validate_node_compatibility ev nodes st = Except.ok es) : es = st := by
  by_cases hl : (dictLookup nodes aw.node_id).isNone
  · simp [validate_node_compatibility, haw, hl] at h
  · simp [validate_node_compatibility, haw, hl] at h
    exact h.symm

/-- Validation maps a weakly well-formed snapshot to a weakly well-formed
state: it only rewrites `next_node_id`, never the status or the awaiting
record, and it never rewrites anything on a waiting snapshot. -/
theorem validate_preserves_okW (ev : Evaluator) (nodes : List (String × NodeDef))
    (sd es0 : ExecutionState)
    (hval : validate_node_compatibility ev nodes sd = Except.ok es0)
    (hsd : snapshotOkW sd = true) :
    snapshotOkW es0 = true ∧
    (es0.workflow_status ≠ WorkflowStatus.WAITING_FOR_INPUT →
      es0.workflow_status ≠ WorkflowStatus.FAILED →
      es0.awaiting_input = none) := by
  obtain ⟨nx, rfl⟩ := validate_ok_shape ev nodes sd es0 hval
  cases hst : sd.workflow_status with
  | IDLE =>
    rw [snapshotOkW, hst] at hsd
    constructor
    · simp only [snapshotOkW, hst]
      exact hsd
    · intro _ _
      exact Option.isNone_iff_eq_none.mp hsd
  | RUNNING =>
    rw [snapshotOkW, hst] at hsd
    cases hsd
  | COMPLETED =>
    rw [snapshotOkW, hst] at hsd
    constructor
    · simp only [snapshotOkW, hst]
      exact hsd
    · intro _ _
      exact Option.isNone_iff_eq_none.mp hsd
  | FAILED =>
    constructor
    · simp only [snapshotOkW, hst]
    · intro _ hne
      exact absurd rfl hne
  | WAITING_FOR_INPUT =>
    rw [snapshotOkW, hst] at hsd
    rw [Bool.and_eq_true] at hsd
    obtain ⟨aw, haw⟩ := Option.isSome_iff_exists.mp hsd.2
    have heq : ({ sd with next_node_id := nx } : ExecutionState) = sd :=
      validate_ok_awaiting ev nodes sd _ aw haw hval
    rw [hst] at heq
    constructor
    · rw [heq]
      simp only [snapshotOkW, hst, Bool.and_eq_true]
      exact hsd
    · intro hne _
      exact absurd rfl hne

/-- Inversion of a successful resume/fork construction: the ancestor journal
was loaded, a snapshot `sd` was selected at index `k` and validated into
`es0`, and the resulting journal is either the single fork entry (`es0` with
fork metadata) or the ancestor journal truncated after `k`. -/
theorem resume_init_ok_inv (ev : Evaluator) (nodes : List (String × NodeDef))
    (storage : Storage) (wf run_id : String) (rf : Option Nat) (fork : Bool)
    (minted : String) (clock : Nat) (rid : String) (steps : List ExecutionState)
    (es : ExecutionState) (stor2 : Storage)
    (hok : resume_engine_init ev nodes storage wf run_id rf fork minted clock =
      Except.ok (rid, steps, es, stor2)) :
    ∃ src k sd es0,
      load_state storage wf run_id = some src ∧
      src.get? k = some sd ∧
      validate_node_compatibility ev nodes sd = Except.ok es0 ∧
      ((steps = [{ es0 with
          metadata := forkMd es0.metadata run_id k clock minted }] ∧
        es = { es0 with metadata := forkMd es0.metadata run_id k clock minted }) ∨
       (steps = src.take (k + 1) ∧ es = es0)) := by
  cases hload : load_state storage wf run_id with
  | none => simp [resume_engine_init, hload] at hok
  | some src =>
    simp only [resume_engine_init, hload] at hok
    split at hok
    · simp at hok
    · split at hok
      · simp at hok
      · rename_i sd hget
        split at hok
        · simp at hok
        · rename_i es0 hval
          split at hok
          · simp only [Except.ok.injEq, Prod.mk.injEq] at hok
            obtain ⟨hrid, hsteps, hes, hstor⟩ := hok
            exact ⟨src, _, sd, es0, rfl, hget, hval, Or.inl ⟨hsteps.symm, hes.symm⟩⟩
          · simp only [Except.ok.injEq, Prod.mk.injEq] at hok
            obtain ⟨hrid, hsteps, hes, hstor⟩ := hok
            exact ⟨src, _, sd, es0, rfl, hget, hval, Or.inr ⟨hsteps.symm, hes.symm⟩⟩

/-- The engine object the resume branch of `WorkflowEngine.__init__` hands
back: the loaded graph, the validated execution state, the constructed
journal, and (machine.py line 307) an empty futures map, nothing parked and
nothing scheduled. -/
def resumedEngine (nodes : List (String × NodeDef)) (steps : List ExecutionState)
    (es : ExecutionState) (clock : Nat) : Engine :=
  { nodes := nodes
    execution_state := es
    steps := steps
    input_futures := []
    parked := none
    resuming := none
    clock := clock }

theorem engineInvW_resumedEngine (ev : Evaluator) (nodes : List (String × NodeDef))
    (storage : Storage) (wf run_id : String) (rf : Option Nat) (fork : Bool)
    (minted : String) (clock : Nat) (rid : String) (steps : List ExecutionState)
    (es : ExecutionState) (stor2 : Storage) (src : List ExecutionState)
    (hload : load_state storage wf run_id = some src)
    (hsrc : ∀ s ∈ src, snapshotOkW s = true)
    (hok : resume_engine_init ev nodes storage wf run_id rf fork minted clock =
      Except.ok (rid, steps, es, stor2)) :
    engineInvW (resumedEngine nodes steps es clock) := by
  obtain ⟨src2, k, sd, es0, hload2, hget, hval, hcase⟩ :=
    resume_init_ok_inv ev nodes storage wf run_id rf fork minted clock rid steps es
      stor2 hok
  rw [hload] at hload2
  injection hload2 with hsrc2
  subst hsrc2
  have hsd : sd ∈ src := List.get?_mem hget
  have hokW := validate_preserves_okW ev nodes sd es0 hval (hsrc sd hsd)
  rcases hcase with ⟨hsteps, hes⟩ | ⟨hsteps, hes⟩
  · subst hsteps
    subst hes
    refine ⟨?_, ?_, ?_⟩
    · intro s hs
      simp [resumedEngine] at hs
      subst hs
      exact hokW.1
    · intro h1 h2
      exact hokW.2 h1 h2
    · intro h
      simp [resumedEngine] at h
  · subst hsteps
    subst hes
    refine ⟨?_, ?_, ?_⟩
    · intro s hs
      simp only [resumedEngine] at hs
      exact hsrc s (List.take_subset _ _ hs)
    · exact hokW.2
    · intro h
      simp [resumedEngine] at h

theorem finishStep_invW (e : Engine) (current : String) (nxt : Option String)
    (hsteps : ∀ s ∈ e.steps, snapshotOkW s = true)
    (hawait : e.execution_state.awaiting_input = none)
    (hres : e.resuming = none) :
    engineInvW (finishStep e current nxt).1 := by
  refine ⟨?_, ?_, ?_⟩
  · intro s hs
    cases nxt with
    | none =>
      simp only [finishStep, hawait, save_state] at hs ⊢
      simp at hs
      rcases hs with hs | hs
      · exact hsteps s hs
      · subst hs; rfl
    | some c =>
      simp only [finishStep, hawait, save_state] at hs ⊢
      simp at hs
      rcases hs with hs | hs
      · exact hsteps s hs
      · subst hs; rfl
  · cases nxt with
    | none => intro _ _; simp [finishStep, hawait, save_state]
    | some c => intro _ _; simp [finishStep, hawait, save_state]
  · cases nxt with
    | none => simp [finishStep, hawait, save_state, hres]
    | some c => simp [finishStep, hawait, save_state, hres]

theorem stepExecute_invW (ev : Evaluator) (e : Engine) (d : Option InputData)
    (hsteps : ∀ s ∈ e.steps, snapshotOkW s = true)
    (hnext : e.execution_state.next_node_id.isSome = true)
    (hawait : e.execution_state.awaiting_input = none)
    (hres : e.resuming = none) :
    engineInvW (stepExecute ev e d).1 := by
  obtain ⟨c, hc⟩ := Option.isSome_iff_exists.mp hnext
  rw [stepExecute]
  simp only [hc]
  cases hnode : dictLookup e.nodes c with
  | none =>
    simp only [execute_node_model, hnode]
    refine ⟨?_, ?_, ?_⟩
    · intro s hs
      simp [save_state] at hs
      rcases hs with hs | hs
      · exact hsteps s hs
      · subst hs
        simp [snapshotOkW]
    · simp [save_state]
    · simp [save_state, hres]
  | some node =>
    cases hb : node.behavior with
    | completes f =>
      simp only [execute_node_model, hnode, hb]
      exact finishStep_invW _ c _ hsteps hawait hres
    | raises msg =>
      simp only [execute_node_model, hnode, hb]
      refine ⟨?_, ?_, ?_⟩
      · intro s hs
        simp [save_state] at hs
        rcases hs with hs | hs
        · exact hsteps s hs
        · subst hs
          simp [snapshotOkW]
      · simp [save_state]
      · simp [save_state, hres]
    | asksInput prompt options ty rid cont =>
      simp only [execute_node_model, hnode, hb]
      cases havail : availInput d (actualRequestId c rid) with
      | some v =>
        simp only [request_input_model, havail]
        exact finishStep_invW _ c _ hsteps hawait hres
      | none =>
        simp only [request_input_model, havail]
        refine ⟨?_, ?_, ?_⟩
        · intro s hs
          simp [save_state] at hs
          rcases hs with hs | hs
          · exact hsteps s hs
          · subst hs
            simp [snapshotOkW, hc]
        · simp [save_state]
        · simp [save_state, hres]

theorem engineInvW_stepFn (ev : Evaluator) (e : Engine) (d : Option InputData)
    (h : engineInvW e) (hres : e.resuming = none) : engineInvW (stepFn ev e d).1 := by
  obtain ⟨hsteps, hstate, _⟩ := h
  by_cases h1 : (e.execution_state.next_node_id = none ∧
      e.execution_state.awaiting_input = none) ∨
      e.execution_state.workflow_status = WorkflowStatus.FAILED
  · simp only [stepFn, if_pos h1]
    exact ⟨hsteps, hstate, by simp [hres]⟩
  · have hnf : e.execution_state.workflow_status ≠ WorkflowStatus.FAILED :=
      fun hx => h1 (Or.inr hx)
    by_cases h2 : e.execution_state.workflow_status = WorkflowStatus.WAITING_FOR_INPUT
    · cases haw : e.execution_state.awaiting_input with
      | none =>
        have hnn : ¬ e.execution_state.next_node_id = none :=
          fun hx => h1 (Or.inl ⟨hx, haw⟩)
        have hred : (stepFn ev e d).1 = e := by
          simp [stepFn, haw, h2, hnn]
        rw [hred]
        exact ⟨hsteps, hstate, by simp [hres]⟩
      | some aw =>
        cases hdel : deliverable d aw.request_id with
        | none =>
          have hred : (stepFn ev e d).1 = e := by
            simp [stepFn, haw, h2, hdel]
          rw [hred]
          exact ⟨hsteps, hstate, by simp [hres]⟩
        | some message =>
          by_cases hfut : aw.request_id ∈ e.input_futures
          · refine ⟨?_, ?_, ?_⟩
            · simp only [stepFn]
              simp [haw, h2, hdel, hfut]
              exact hsteps
            · simp only [stepFn]
              simp [haw, h2, hdel, hfut]
              split <;> rfl
            · simp only [stepFn]
              simp [haw, h2, hdel, hfut]
              intro hsome
              split <;> rfl
          · have hred : (stepFn ev e d).1 =
                (stepExecute ev
                  { e with execution_state :=
                      { (if dictLookup e.execution_state.node_statuses aw.node_id =
                            some NodeStatus.waiting_for_input then
                          { e.execution_state with
                              awaiting_input := none
                              node_statuses :=
                                dictRemove e.execution_state.node_statuses aw.node_id }
                        else { e.execution_state with awaiting_input := none }) with
                          next_node_id := some aw.node_id } } d).1 := by
              simp only [stepFn]
              simp [haw, h2, hdel, hfut]
            rw [hred]
            apply stepExecute_invW
            · exact hsteps
            · rfl
            · split <;> rfl
            · exact hres
    · have hawn : e.execution_state.awaiting_input = none := hstate h2 hnf
      have hnn : ¬ e.execution_state.next_node_id = none :=
        fun hx => h1 (Or.inl ⟨hx, hawn⟩)
      simp only [stepFn, if_neg h1, if_neg h2]
      exact stepExecute_invW ev e d hsteps (Option.isSome_iff_ne_none.mpr hnn) hawn hres

theorem engineInvW_resumeScheduled (ev : Evaluator) (e : Engine)
    (h : engineInvW e) : engineInvW (resumeScheduled ev e).1 := by
  obtain ⟨hsteps, hstate, hresaw⟩ := h
  cases hres : e.resuming with
  | none =>
    simp only [resumeScheduled, hres]
    exact ⟨hsteps, hstate, by simp [hres]⟩
  | some pm =>
    obtain ⟨p, message⟩ := pm
    have haw : e.execution_state.awaiting_input = none := hresaw (by simp [hres])
    simp only [resumeScheduled, hres]
    exact finishStep_invW _ p.node_id _ hsteps haw rfl

theorem engineInvW_initEngine (nodes : List (String × NodeDef)) (start : String)
    (shared : Shared) (clock : Nat) :
    engineInvW (initEngine nodes start shared clock) := by
  refine ⟨?_, ?_, ?_⟩
  · intro s hs
    simp [initEngine] at hs
    subst hs
    rfl
  · intro _ _
    rfl
  · intro h
    simp [initEngine] at h

/-- States reachable by the engine, now INCLUDING the resume/fork
constructor: a fresh run; an engine seeded from a stored journal all of
whose snapshots satisfy the weak shape (which clause holds of every journal
this relation can persist); a `step` invocation while no resumed coroutine
is pending; and the event-loop completion of a resumed coroutine. -/
inductive ReachR (ev : Evaluator) : Engine → Prop where
  | fresh : ∀ (nodes : List (String × NodeDef)) (start : String) (shared : Shared)
      (clock : Nat), ReachR ev (initEngine nodes start shared clock)
  | seeded : ∀ (nodes : List (String × NodeDef)) (storage : Storage)
      (wf run_id : String) (rf : Option Nat) (fork : Bool) (minted : String)
      (clock : Nat) (rid : String) (steps : List ExecutionState)
      (es : ExecutionState) (stor2 : Storage) (src : List ExecutionState),
      load_state storage wf run_id = some src →
      (∀ s ∈ src, snapshotOkW s = true) →
      resume_engine_init ev nodes storage wf run_id rf fork minted clock =
        Except.ok (rid, steps, es, stor2) →
      ReachR ev (resumedEngine nodes steps es clock)
  | step : ∀ (e : Engine) (d : Option InputData), ReachR ev e → e.resuming = none →
      ReachR ev (stepFn ev e d).1
  | resume : ∀ (e : Engine), ReachR ev e → ReachR ev (resumeScheduled ev e).1

theorem reachR_engineInvW (ev : Evaluator) (e : Engine) (h : ReachR ev e) :
    engineInvW e := by
  induction h with
  | fresh nodes start shared clock => exact engineInvW_initEngine nodes start shared clock
  | seeded nodes storage wf run_id rf fork minted clock rid steps es stor2 src
      hload hsrc hok =>
    exact engineInvW_resumedEngine ev nodes storage wf run_id rf fork minted clock rid
      steps es stor2 src hload hsrc hok
  | step e d _ hresume ih => exact engineInvW_stepFn ev e d ih hresume
  | resume e _ ih => exact engineInvW_resumeScheduled ev e ih

/-- Ancestor snapshot for the both-null fork scenario: an ordinary `IDLE`
end-of-step snapshot (previous node `P`, stored next node `X`) with shared
state `{x: 0}`. -/
def sdBoth : ExecutionState :=
  { shared := [("x", Value.vint 0)]
    next_node_id := some "X"
    workflow_status := WorkflowStatus.IDLE
    node_statuses := []
    awaiting_input := none
    previous_node_id := some "P"
    metadata := [] }

/-- Current graph for the both-null fork scenario: `P`'s only outgoing edge
is now guarded by `shared['x']>5`, which is false at `{x: 0}`. -/
def nodePcond : NodeDef :=
  addEdges (emptyNode "P")
    [{ from_id := "P", to_id := "Y", condition := "shared[\x27x\x27]>5" }]

/-- The ancestor's stored journal for the both-null fork scenario. -/
def storBoth : Storage := [(("wf", runIdAnc), [sdBoth])]

/-- The forked journal head: validation re-ran the edge selector on `P`,
whose guard is false at `{x: 0}`, so `next_node_id` became null while
`awaiting_input` stayed null and the status stayed `IDLE`. -/
def esBoth : ExecutionState :=
  { sdBoth with
      next_node_id := none
      metadata := [("forked_from", MValue.forkedFrom runIdAnc 0),
                   ("fork_time", MValue.mnat 5),
                   ("run_id", MValue.mstr runIdFork)] }

/-- The engine the fork constructor hands back in the both-null scenario. -/
def engBoth : Engine := resumedEngine [("P", nodePcond)] [esBoth] esBoth 5

/-- Counterexample to claim C1, in both directions.  First: in a reachable
engine, the snapshot appended while node `W` is suspended has status
`WAITING_FOR_INPUT` (not in {COMPLETED, FAILED}) and BOTH `next_node_id`
and `awaiting_input` non-null — `step` reads `next_node_id` at machine.py
line 397 but never clears it before the node suspends.  Second: the
resume/fork constructor is also an engine-reachable source of snapshots,
and forking `sdBoth` against a graph whose edge guard fails journals an
`IDLE` snapshot with BOTH fields null (validation at lines 451-455
recomputed `next_node_id` to `None`; the fork branch at line 285 journals
it).  Both ways the claimed xor fails on a snapshot whose status is neither
COMPLETED nor FAILED. -/
theorem c1_counterexample :
    (Reach evStub engAsk1 ∧
      (engAsk1.steps.get? 1).map
          (fun s => (s.workflow_status, s.next_node_id, s.awaiting_input.isSome)) =
        some (WorkflowStatus.WAITING_FOR_INPUT, some "W", true)) ∧
    (ReachR evalXgt5 engBoth ∧
      engBoth.steps.map (fun s => (s.workflow_status, s.next_node_id, s.awaiting_input)) =
        [(WorkflowStatus.IDLE, none, none)]) :=
  ⟨⟨Reach.step engAsk none (Reach.init _ _ _ _) rfl, rfl⟩,
   ⟨ReachR.seeded [("P", nodePcond)] storBoth "wf" runIdAnc (some 0) true runIdFork 5
      runIdFork [esBoth] esBoth (storage_save storBoth "wf" runIdFork [esBoth]) [sdBoth]
      rfl (by decide) rfl,
    rfl⟩⟩

/-- Claim C1 as amended, in three parts.  (1) For the snapshots the engine
appends while executing a fresh-started run (initial snapshot, end-of-step,
failure, and suspension saves): exactly one of `next_node_id` and
`awaiting_input` is non-null when the status is outside
{COMPLETED, FAILED, WAITING_FOR_INPUT} (namely `next_node_id`); suspension
snapshots (status WAITING_FOR_INPUT) have BOTH non-null; completed
snapshots have both null.  (2) Across ALL reachable engines — including
ones the resume/fork constructor seeds from a stored journal of this shape
— what survives is: no snapshot has status RUNNING, waiting snapshots have
both fields non-null, and idle or completed snapshots have a null
awaiting record (`next_node_id` is NOT constrained there: a seeded idle
head can have both fields null, a seeded completed head a non-null next).
(3) A constructor-built journal consists of ancestor snapshots unchanged
in every field except possibly `next_node_id` (recomputed by edge
selection) and `metadata` (fork lineage). -/
theorem c1_snapshot_invariant :
    (∀ (ev : Evaluator) (e : Engine), Reach ev e → ∀ s ∈ e.steps,
      (s.workflow_status ≠ WorkflowStatus.COMPLETED →
        s.workflow_status ≠ WorkflowStatus.FAILED →
        s.workflow_status ≠ WorkflowStatus.WAITING_FOR_INPUT →
        s.next_node_id ≠ none ∧ s.awaiting_input = none) ∧
      (s.workflow_status = WorkflowStatus.WAITING_FOR_INPUT →
        s.next_node_id ≠ none ∧ s.awaiting_input ≠ none) ∧
      (s.workflow_status = WorkflowStatus.COMPLETED →
        s.next_node_id = none ∧ s.awaiting_input = none)) ∧
    (∀ (ev : Evaluator) (e : Engine), ReachR ev e → ∀ s ∈ e.steps,
      s.workflow_status ≠ WorkflowStatus.RUNNING ∧
      (s.workflow_status = WorkflowStatus.WAITING_FOR_INPUT →
        s.next_node_id ≠ none ∧ s.awaiting_input ≠ none) ∧
      ((s.workflow_status = WorkflowStatus.IDLE ∨
          s.workflow_status = WorkflowStatus.COMPLETED) →
        s.awaiting_input = none)) ∧
    (∀ (ev : Evaluator) (nodes : List (String × NodeDef)) (storage : Storage)
        (wf run_id : String) (rf : Option Nat) (fork : Bool) (minted : String)
        (clock : Nat) (rid : String) (steps : List ExecutionState)
        (es : ExecutionState) (stor2 : Storage) (src : List ExecutionState),
      load_state storage wf run_id = some src →
      resume_engine_init ev nodes storage wf run_id rf fork minted clock =
        Except.ok (rid, steps, es, stor2) →
      ∀ s ∈ steps, ∃ sd ∈ src,
        s.workflow_status = sd.workflow_status ∧
        s.awaiting_input = sd.awaiting_input ∧
        s.shared = sd.shared ∧
        s.node_statuses = sd.node_statuses ∧
        s.previous_node_id = sd.previous_node_id) := by
  refine ⟨?_, ?_, ?_⟩
  · intro ev e h s hs
    have hok : snapshotOk s = true := (reach_engineInv ev e h).1 s hs
    refine ⟨?_, ?_, ?_⟩
    · intro hc hf hw
      cases hst : s.workflow_status with
      | IDLE =>
        rw [snapshotOk, hst] at hok
        rw [Bool.and_eq_true] at hok
        exact ⟨Option.isSome_iff_ne_none.mp hok.1, Option.isNone_iff_eq_none.mp hok.2⟩
      | RUNNING =>
        rw [snapshotOk, hst] at hok
        cases hok
      | COMPLETED => exact absurd hst hc
      | FAILED => exact absurd hst hf
      | WAITING_FOR_INPUT => exact absurd hst hw
    · intro hw
      rw [snapshotOk, hw] at hok
      rw [Bool.and_eq_true] at hok
      exact ⟨Option.isSome_iff_ne_none.mp hok.1,
        fun hn => by rw [hn] at hok; simp at hok⟩
    · intro hc
      rw [snapshotOk, hc] at hok
      rw [Bool.and_eq_true] at hok
      exact ⟨Option.isNone_iff_eq_none.mp hok.1, Option.isNone_iff_eq_none.mp hok.2⟩
  · intro ev e h s hs
    have hok : snapshotOkW s = true := (reachR_engineInvW ev e h).1 s hs
    refine ⟨?_, ?_, ?_⟩
    · intro hst
      rw [snapshotOkW, hst] at hok
      cases hok
    · intro hw
      rw [snapshotOkW, hw] at hok
      rw [Bool.and_eq_true] at hok
      exact ⟨Option.isSome_iff_ne_none.mp hok.1,
        fun hn => by rw [hn] at hok; simp at hok⟩
    · intro hic
      rcases hic with hst | hst
      · rw [snapshotOkW, hst] at hok
        exact Option.isNone_iff_eq_none.mp hok
      · rw [snapshotOkW, hst] at hok
        exact Option.isNone_iff_eq_none.mp hok
  · intro ev nodes storage wf run_id rf fork minted clock rid steps es stor2 src
      hload hok s hs
    obtain ⟨src2, k, sd0, es0, hload2, hget, hval, hcase⟩ :=
      resume_init_ok_inv ev nodes storage wf run_id rf fork minted clock rid steps es
        stor2 hok
    rw [hload] at hload2
    injection hload2 with hsrc2
    subst hsrc2
    rcases hcase with ⟨hsteps, _⟩ | ⟨hsteps, _⟩
    · subst hsteps
      simp at hs
      subst hs
      obtain ⟨nx, rfl⟩ := validate_ok_shape ev nodes sd0 es0 hval
      exact ⟨sd0, List.get?_mem hget, rfl, rfl, rfl, rfl, rfl⟩
    · subst hsteps
      exact ⟨s, List.take_subset _ _ hs, rfl, rfl, rfl, rfl, rfl⟩

/-- Witness for the amended C1: part (1) on the initial snapshot of the
fresh run `engA`; parts (2) and (3) on the forked journal head `esBoth` of
the constructor-seeded engine `engBoth`. -/
theorem c1_snapshot_invariant_witness :
    (engA.execution_state ∈ engA.steps ∧
      ((engA.execution_state.workflow_status ≠ WorkflowStatus.COMPLETED →
          engA.execution_state.workflow_status ≠ WorkflowStatus.FAILED →
          engA.execution_state.workflow_status ≠ WorkflowStatus.WAITING_FOR_INPUT →
          engA.execution_state.next_node_id ≠ none ∧
            engA.execution_state.awaiting_input = none) ∧
        (engA.execution_state.workflow_status = WorkflowStatus.WAITING_FOR_INPUT →
          engA.execution_state.next_node_id ≠ none ∧
            engA.execution_state.awaiting_input ≠ none) ∧
        (engA.execution_state.workflow_status = WorkflowStatus.COMPLETED →
          engA.execution_state.next_node_id = none ∧
            engA.execution_state.awaiting_input = none))) ∧
    (esBoth ∈ engBoth.steps ∧
      (esBoth.workflow_status ≠ WorkflowStatus.RUNNING ∧
        (esBoth.workflow_status = WorkflowStatus.WAITING_FOR_INPUT →
          esBoth.next_node_id ≠ none ∧ esBoth.awaiting_input ≠ none) ∧
        ((esBoth.workflow_status = WorkflowStatus.IDLE ∨
            esBoth.workflow_status = WorkflowStatus.COMPLETED) →
          esBoth.awaiting_input = none))) ∧
    (∃ sd ∈ [sdBoth],
      esBoth.workflow_status = sd.workflow_status ∧
      esBoth.awaiting_input = sd.awaiting_input ∧
      esBoth.shared = sd.shared ∧
      esBoth.node_statuses = sd.node_statuses ∧
      esBoth.previous_node_id = sd.previous_node_id) :=
  ⟨⟨List.mem_singleton_self _,
    c1_snapshot_invariant.1 evStub engA (Reach.init _ _ _ _) engA.execution_state
      (List.mem_singleton_self _)⟩,
   ⟨List.mem_singleton_self _,
    c1_snapshot_invariant.2.1 evalXgt5 engBoth
      (ReachR.seeded [("P", nodePcond)] storBoth "wf" runIdAnc (some 0) true runIdFork
        5 runIdFork [esBoth] esBoth (storage_save storBoth "wf" runIdFork [esBoth])
        [sdBoth] rfl (by decide) rfl)
      esBoth (List.mem_singleton_self _)⟩,
   c1_snapshot_invariant.2.2 evalXgt5 [("P", nodePcond)] storBoth "wf" runIdAnc
     (some 0) true runIdFork 5 runIdFork [esBoth] esBoth
     (storage_save storBoth "wf" runIdFork [esBoth]) [sdBoth] rfl rfl esBoth
     (List.mem_singleton_self _)⟩
